import Mathlib

set_option maxHeartbeats 1000000

/-!
Shallow embedding of the taxi-zebra plugin (backend.py, ui.py, utils.py) and
proofs of the claims about its role-resolution flow, prompt layer, alias
mapping helpers and URL construction.

Python strings that undergo character-level manipulation (strip, startswith,
int parsing) are modelled as `List Char`; strings that are only compared or
concatenated stay `String`.
-/

namespace TaxiZebra

/-- Lexicographic strict order on character lists, comparing code points,
as Python compares strings. -/
def charListLt : List Char → List Char → Bool
  | [], [] => false
  | [], _ :: _ => true
  | _ :: _, [] => false
  | a :: as, b :: bs =>
    if a.toNat < b.toNat then true
    else if b.toNat < a.toNat then false
    else charListLt as bs

/-- Non-strict string comparison used to state sortedness: `a` does not come
strictly after `b`. -/
def strLe (a b : String) : Bool := !(charListLt b.data a.data)

/-- Stable insertion into a list sorted by the strict comparison `lt`:
the new element goes after every element it does not strictly precede.
Together with `insertionSort` this models Python's stable `sorted`. -/
def orderedInsert (lt : α → α → Bool) (x : α) : List α → List α
  | [] => [x]
  | y :: t => if lt x y then x :: y :: t else y :: orderedInsert lt x t

/-- Stable sort by the strict comparison `lt`; models Python `sorted(..., key=...)`. -/
def insertionSort (lt : α → α → Bool) : List α → List α
  | [] => []
  | x :: t => orderedInsert lt x (insertionSort lt t)

/-- Model of `enumerate(choices)` with integer positions. -/
def enumFrom (i : Int) : List α → List (Int × α)
  | [] => []
  | x :: t => (i, x) :: enumFrom (i + 1) t

/-- Strip all leading `[` and all trailing `]` from an input, as
`.lstrip('[').rstrip(']')` does in `prompt_choices` / `prompt_options`. -/
def stripBrackets (s : List Char) : List Char :=
  ((s.dropWhile (· == '[')).reverse.dropWhile (· == ']')).reverse

/-- Digit test matching `str.isdigit` for ASCII decimal digits. -/
def allDigits (l : List Char) : Bool := l.all (·.isDigit)

/-- Value of a list of decimal digits. -/
def digitsToNat (l : List Char) : Nat :=
  l.foldl (fun acc c => acc * 10 + (c.toNat - 48)) 0

/-- Model of Python `int(s)` on a plain decimal literal with an optional
sign: `some` of the value when the string parses, `none` when `int` would
raise `ValueError`. -/
def pyInt : List Char → Option Int
  | '-' :: rest => if rest.length ≠ 0 ∧ allDigits rest then some (-(digitsToNat rest : Int)) else none
  | '+' :: rest => if rest.length ≠ 0 ∧ allDigits rest then some (digitsToNat rest : Int) else none
  | s => if s.length ≠ 0 ∧ allDigits s then some (digitsToNat s : Int) else none

/-- A Python value usable as a dict key in the prompt layers: the generated
integer position of an option, or an explicit string key such as `"i"` /
`"c"`. -/
inductive PyKey where
  | intK (n : Int)
  | strK (s : String)
  deriving DecidableEq

/-- Turn one line of user input into the dict key it is looked up under:
strip brackets, then try `int()`, falling back to the string itself. -/
def inputKey (s : List Char) : PyKey :=
  let t := stripBrackets s
  match pyInt t with
  | some n => .intK n
  | none => .strK (String.mk t)

/-- An alias mapping as owned by the host: the tuple
`(project_id, activity_id, role_id?)` (element type `α` is `Int` in the
backend.py revision and `String` in the ui.py/utils.py revision) plus the
backend name. -/
structure Mapping (α : Type) where
  mapping : List α
  backend : String
  deriving DecidableEq

/-- The in-memory `aliases_database` (and the settings store), modelled as
an association list from alias to mapping. -/
abbrev AliasDB (α : Type) : Type := List (String × Mapping α)

/-- Dict lookup: `aliases_database[alias]`, `None` for a `KeyError`. -/
def dbLookup (db : AliasDB α) (a : String) : Option (Mapping α) :=
  (db.find? (fun p => decide (p.1 = a))).map (·.2)

/-- Dict assignment: `aliases_database[alias] = m`, replacing an existing
binding or appending a new one. -/
def dbInsert (db : AliasDB α) (a : String) (m : Mapping α) : AliasDB α :=
  match db with
  | [] => [(a, m)]
  | (b, n) :: rest => if b = a then (b, m) :: rest else (b, n) :: dbInsert rest a m

/-- The host `settings` object: its alias section plus a count of
`write_config` calls. -/
structure Settings (α : Type) where
  aliases : AliasDB α
  configWrites : Nat
  deriving DecidableEq

/-- A timesheet entry (host-owned, read-only to this plugin). -/
structure Entry where
  ealias : String
  hours : Nat
  description : String
  deriving DecidableEq

/-- Model of `get_role_from_entry` (backend.py): the third element of the entry's
alias mapping, `None` on a missing alias (`KeyError`) or a short mapping
tuple (`IndexError`). -/
def get_role_from_entry (db : AliasDB α) (entry : Entry) : Option α :=
  match dbLookup db entry.ealias with
  | none => none
  | some mapping => mapping.mapping[2]?

/-- Model of `get_role_id_from_alias` (utils.py): same computation keyed directly by
the alias string. -/
def get_role_id_from_alias (db : AliasDB α) (al : String) : Option α :=
  match dbLookup db al with
  | none => none
  | some mapping => mapping.mapping[2]?

/-- Model of `update_alias_mapping` (utils.py, and verbatim in backend.py): rebind
`al` to `new_mapping` (keeping the original backend name) in the
in-memory aliases database, add it to the settings and write the
configuration file, all in one operation.  `none` models the `KeyError`
when the alias is unknown. -/
def update_alias_mapping (settings : Settings α) (db : AliasDB α) (al : String)
    (new_mapping : List α) : Option (Settings α × AliasDB α) :=
  match dbLookup db al with
  | none => none
  | some mapping =>
    let nm : Mapping α := ⟨new_mapping, mapping.backend⟩
    some ({ aliases := dbInsert settings.aliases al nm,
            configWrites := settings.configWrites + 1 },
          dbInsert db al nm)

/-- State shared by the push flow: the in-memory aliases database and the
settings store. -/
structure PluginState (α : Type) where
  db : AliasDB α
  settings : Settings α
  deriving DecidableEq

/-- The connection data of `ZebraBackend` after `__init__`. -/
structure ZebraBackend where
  hostname : String
  port : Nat
  path : List Char
  deriving DecidableEq

/-- Model of `ZebraBackend.__init__`: default the port to 443 when falsy (absent or
zero) and normalize the path to start and end with a slash. -/
def ZebraBackend.init (hostname : String) (port : Option Nat) (path : List Char) :
    ZebraBackend :=
  let port := match port with
              | none => 443
              | some p => if p = 0 then 443 else p
  let path := if path.head? = some '/' then path else '/' :: path
  let path := if path.getLast? = some '/' then path else path ++ ['/']
  { hostname := hostname, port := port, path := path }

/-- Model of `ZebraBackend.get_full_url`: strip the slashes at the start of `url`
(the path already ends with one) and interpolate
`https://{host}:{port}{base_path}{url}`. -/
def ZebraBackend.get_full_url (b : ZebraBackend) (url : List Char) : List Char :=
  let url := url.dropWhile (· = '/')
  "https://".data ++ b.hostname.data ++ ':' :: (toString b.port).data ++ b.path ++ url

/-- The JSON body of a server response, restricted to the fields the plugin
reads.  `none` fields model absent keys. -/
structure RespJson where
  success : Option Bool
  errorCode : Option String
  error : Option String
  deriving DecidableEq

/-- A server response: its truthiness (`requests` responses are falsy on
HTTP status ≥ 400) and its body, `none` when `.json()` raises `ValueError`. -/
structure Response where
  ok : Bool
  json : Option RespJson
  deriving DecidableEq

/-- The parameters of one timesheet POST. -/
structure PushParams where
  project_id : Int
  activity_id : Int
  role_id : Option Int
  individual_action : Option Bool
  time : Nat
  date : String
  description : String
  deriving DecidableEq

/-- The key/value pairs actually sent in the POST body: `to_zebra_params`
turns booleans into `"true"`/`"false"` and the HTTP layer drops parameters
whose value is `None`. -/
def wireParams (p : PushParams) : List (String × String) :=
  [("time", toString p.time),
   ("project_id", toString p.project_id),
   ("activity_id", toString p.activity_id)]
  ++ (match p.role_id with
      | some r => [("role_id", toString r)]
      | none => [])
  ++ [("date", p.date), ("description", p.description)]
  ++ (match p.individual_action with
      | some b => [("individual_action", if b then "true" else "false")]
      | none => [])

/-- One line of user interaction at a prompt: `Ctrl-C` or entered text. -/
inductive UserInput where
  | abort
  | text (s : List Char)
  deriving DecidableEq

/-- The answer to the `[y]es, [n]o, [N]ever` persistence question
(`click.Choice` re-prompts until one of the three is given, or the user
aborts). -/
inductive PersistAnswer where
  | yes
  | no
  | never
  | abort
  deriving DecidableEq

/-- The user's scripted interaction for one `push_entry` call. -/
structure UserIO where
  roleInputs : List UserInput
  persistAnswer : PersistAnswer
  deriving DecidableEq

namespace backend

/-- One choice tuple handed to `prompt_choices` in backend.py:
`(value, label)` or `(value, label, key)`. -/
structure Choice where
  value : Option PyKey
  label : String
  key : Option PyKey
  deriving DecidableEq

/-- Model of `get_choice_key`: the explicit third tuple element when present,
otherwise `None` for separators and the position for real choices. -/
def get_choice_key (choice : Choice) (choice_pos : Int) : Option PyKey :=
  match choice.key with
  | some k => some k
  | none => if choice.value = none then none else some (.intK choice_pos)

/-- Model of `choices_by_key`: each choice paired with its key. -/
def choicesByKey (choices : List Choice) : List (Option PyKey × Choice) :=
  (enumFrom 0 choices).map (fun p => (get_choice_key p.2 p.1, p.2))

/-- Model of `dict(choices_by_key)[k]`: lookup where a later duplicate key would
shadow an earlier one, `none` for `KeyError`. -/
def dictLookup (l : List (Option PyKey × Choice)) (k : Option PyKey) : Option Choice :=
  (l.reverse.find? (fun p => decide (p.1 = k))).map (·.2)

/-- The `while True` input loop of `prompt_choices`: an abort returns the
default, a recognised key returns that choice's value, anything else
re-prompts.  The outer `none` models an exhausted input script (the loop
would block for more input). -/
def prompt_choices_go (byKey : List (Option PyKey × Choice)) (dflt : Option PyKey) :
    List UserInput → Option (Option PyKey)
  | [] => none
  | .abort :: _ => some dflt
  | .text s :: rest =>
    match dictLookup byKey (some (inputKey s)) with
    | some c => some c.value
    | none => prompt_choices_go byKey dflt rest

/-- Model of `prompt_choices` (backend.py). -/
def prompt_choices (choices : List Choice) (dflt : Option PyKey)
    (inputs : List UserInput) : Option (Option PyKey) :=
  prompt_choices_go (choicesByKey choices) dflt inputs

/-- Strict order on `(id, name)` role items by name, the key of the
`sorted(roles.items(), key=lambda item: item[1])` call. -/
def roleItemLt (a b : Int × String) : Bool := charListLt a.2.data b.2.data

/-- The choice list built by `input_role` (backend.py): roles sorted by
name, a separator, the individual-action option and the cancel option. -/
def input_role_choices (roles : List (Int × String)) : List Choice :=
  ((insertionSort roleItemLt roles).map fun it =>
    { value := some (.intK it.1), label := it.2, key := none })
  ++ [{ value := none, label := "-----", key := none },
      { value := some (.strK "i"), label := "Individual action ❮ YOLO", key := some (.strK "i") },
      { value := some (.strK "c"), label := "Cancel, skip this entry for now", key := some (.strK "c") }]

/-- Outcome of `input_role`: `CancelInput`, a selected role id (`none` for
individual action), or an exhausted input script. -/
inductive RoleSelection where
  | cancel
  | selected (role_id : Option Int)
  | hang
  deriving DecidableEq

/-- Model of `input_role` (backend.py): prompt with default `cancel`; raise
`CancelInput` on cancel, map individual action to `None`.  The wildcard
branch covers the separator value `None`, which Python returns unchanged
and which downstream is indistinguishable from individual action. -/
def input_role (roles : List (Int × String)) (inputs : List UserInput) : RoleSelection :=
  match prompt_choices (input_role_choices roles) (some (.strK "c")) inputs with
  | none => .hang
  | some v =>
    if v = some (.strK "c") then .cancel
    else if v = some (.strK "i") then .selected none
    else match v with
         | some (.intK r) => .selected (some r)
         | _ => .selected none

/-- Model of `user_roles[role_id]`: name of a role id in the roles dict, `none` for
`KeyError`. -/
def rolesLookup (roles : List (Int × String)) (r : Int) : Option String :=
  (roles.find? (fun p => decide (p.1 = r))).map (·.2)

/-- Typed failures escaping `_push_entry` / `push_entry`. -/
inductive PushErr where
  | pushEntryFailed (msg : String)
  | uncaught
  deriving DecidableEq

/-- The message of the non-JSON push failure. -/
def nonJsonMsg : String := "Got a non-JSON response when trying to push timesheet"

/-- The message of the invalid-role push failure. -/
def invalidRoleMsg : String :=
  "Invalid role. Please check this role is assigned to you and update your alias accordingly."

/-- Result of one `_push_entry` call: the parameters that were POSTed (if
the request was reached) and either the parsed response or a failure.
`uncaught` models a `KeyError`/`IndexError` escaping the function. -/
structure PushAttempt where
  sent : Option PushParams
  result : Except PushErr (Response × RespJson)

/-- Model of `_push_entry` (backend.py): build the parameters from the alias
mapping, POST them (the response is supplied by the `resp` oracle), fail
on a non-JSON body, fail on a falsy response carrying `role_invalid`,
otherwise hand back the response and its JSON. -/
def _push_entry (db : AliasDB Int) (date : String) (entry : Entry) (role_id : Option Int)
    (individual_action : Option Bool) (resp : Response) : PushAttempt :=
  match dbLookup db entry.ealias with
  | none => ⟨none, .error .uncaught⟩
  | some mapping =>
    match mapping.mapping[0]?, mapping.mapping[1]? with
    | some p, some a =>
      let params : PushParams :=
        { project_id := p, activity_id := a, role_id := role_id,
          individual_action := individual_action, time := entry.hours,
          date := date, description := entry.description }
      match resp.json with
      | none => ⟨some params, .error (.pushEntryFailed nonJsonMsg)⟩
      | some j =>
        if resp.ok = false ∧ j.errorCode = some "role_invalid" then
          ⟨some params, .error (.pushEntryFailed invalidRoleMsg)⟩
        else ⟨some params, .ok (resp, j)⟩
    | _, _ => ⟨none, .error .uncaught⟩

/-- Observable events of one `push_entry` call. -/
inductive Event where
  | pushed (p : PushParams)
  | rolePromptShown
  | persistPromptShown
  deriving DecidableEq

/-- The push events of one attempt. -/
def attEvents (att : PushAttempt) : List Event :=
  match att.sent with
  | some p => [.pushed p]
  | none => []

/-- Result of `push_entry`: the returned additional-info string, a
`PushEntryFailed`, an uncaught exception, or an exhausted input script. -/
inductive PushResult where
  | ok (msg : String)
  | pushEntryFailed (msg : String)
  | uncaught
  | hang
  deriving DecidableEq

/-- Everything observable about one `push_entry` call: its result, the
events it produced in order, and the final alias/settings state. -/
structure PushOutput where
  result : PushResult
  events : List Event
  state : PluginState Int
  deriving DecidableEq

/-- The tail of `push_entry`: `response_json['success']` (a `KeyError` when
absent), `PushEntryFailed` with the server's `error` text or
`"Unknown error"` on failure, and the returned message, which reports an
individual action whenever `role_id` is falsy (`None` or `0`). -/
def push_finish (st : PluginState Int) (roles : List (Int × String)) (evs : List Event)
    (role_id : Option Int) (j : RespJson) : PushOutput :=
  match j.success with
  | none => ⟨.uncaught, evs, st⟩
  | some false => ⟨.pushEntryFailed (j.error.getD "Unknown error"), evs, st⟩
  | some true =>
    match role_id with
    | none => ⟨.ok "individual action", evs, st⟩
    | some r =>
      if r = 0 then ⟨.ok "individual action", evs, st⟩
      else
        match rolesLookup roles r with
        | some name => ⟨.ok ("as " ++ name), evs, st⟩
        | none => ⟨.uncaught, evs, st⟩

/-- The retry push of `push_entry`, with
`individual_action=role_id is None`, consuming the server's second
response. -/
def push_retry (st : PluginState Int) (roles : List (Int × String)) (server : Nat → Response)
    (date : String) (entry : Entry) (role_id : Option Int) (evs : List Event) : PushOutput :=
  let att2 := _push_entry st.db date entry role_id (some role_id.isNone) (server 1)
  let evs2 := evs ++ attEvents att2
  match att2.result with
  | .error (.pushEntryFailed m) => ⟨.pushEntryFailed m, evs2, st⟩
  | .error .uncaught => ⟨.uncaught, evs2, st⟩
  | .ok (_, json2) => push_finish st roles evs2 role_id json2

/-- The persistence step of `push_entry`, entered after a role selection:
when a role was chosen and the alias is not flagged with the `0` sentinel,
echo the role name (`user_roles[role_id]`), ask the persistence question,
update the alias mapping on `y` (chosen role) or `N` (sentinel `0`), raise
`PushEntryFailed("Skipped")` on abort; then retry the push. -/
def persist_and_retry (st : PluginState Int) (roles : List (Int × String))
    (server : Nat → Response) (user : UserIO) (date : String) (entry : Entry)
    (alias_role_id role_id : Option Int) (evs : List Event) : PushOutput :=
  match role_id with
  | none => push_retry st roles server date entry none evs
  | some r =>
    if alias_role_id = some 0 then
      push_retry st roles server date entry (some r) evs
    else
      match rolesLookup roles r with
      | none => ⟨.uncaught, evs, st⟩
      | some _ =>
        let evs := evs ++ [.persistPromptShown]
        match user.persistAnswer with
        | .abort => ⟨.pushEntryFailed "Skipped", evs, st⟩
        | .yes =>
          match dbLookup st.db entry.ealias with
          | none => ⟨.uncaught, evs, st⟩
          | some mapping =>
            match update_alias_mapping st.settings st.db entry.ealias
                (mapping.mapping.take 2 ++ [r]) with
            | none => ⟨.uncaught, evs, st⟩
            | some (settings2, db2) =>
              push_retry ⟨db2, settings2⟩ roles server date entry (some r) evs
        | .no => push_retry st roles server date entry (some r) evs
        | .never =>
          match dbLookup st.db entry.ealias with
          | none => ⟨.uncaught, evs, st⟩
          | some mapping =>
            match update_alias_mapping st.settings st.db entry.ealias
                (mapping.mapping.take 2 ++ [0]) with
            | none => ⟨.uncaught, evs, st⟩
            | some (settings2, db2) =>
              push_retry ⟨db2, settings2⟩ roles server date entry (some r) evs

/-- Model of `push_entry` (backend.py): push with the alias role (`0` sentinel sent
as `None`); on a falsy response carrying `role_needed`, run `input_role`
(`CancelInput` becomes `PushEntryFailed("Skipped")`), maybe persist, and
retry once; finally check the `success` field. -/
def push_entry (st : PluginState Int) (roles : List (Int × String)) (server : Nat → Response)
    (user : UserIO) (date : String) (entry : Entry) : PushOutput :=
  let alias_role_id := get_role_from_entry st.db entry
  let firstRole := if alias_role_id = some 0 then none else alias_role_id
  let att1 := _push_entry st.db date entry firstRole none (server 0)
  let evs1 := attEvents att1
  match att1.result with
  | .error (.pushEntryFailed m) => ⟨.pushEntryFailed m, evs1, st⟩
  | .error .uncaught => ⟨.uncaught, evs1, st⟩
  | .ok (resp1, json1) =>
    if resp1.ok = false ∧ json1.errorCode = some "role_needed" then
      let evs2 := evs1 ++ [.rolePromptShown]
      match input_role roles user.roleInputs with
      | .hang => ⟨.hang, evs2, st⟩
      | .cancel => ⟨.pushEntryFailed "Skipped", evs2, st⟩
      | .selected role_id =>
        persist_and_retry st roles server user date entry alias_role_id role_id evs2
    else
      push_finish st roles evs1 alias_role_id json1

/-- Result of `authenticate`: the new value of the `_authenticated` flag,
or a raised `TaxiException`. -/
inductive AuthResult where
  | ok (authenticated : Bool)
  | taxiException (msg : String)
  deriving DecidableEq

/-- Model of `ZebraBackend.authenticate`: a no-op when already
authenticated or token-based (no password); otherwise POST the login and
raise `TaxiException` when the response body is not JSON. -/
def authenticate (authenticated : Bool) (password : String)
    (loginRespJson : Option RespJson) : AuthResult :=
  if authenticated = true ∨ password = "" then .ok authenticated
  else
    match loginRespJson with
    | none => .taxiException "Login failed, please check your credentials"
    | some _ => .ok true

end backend

namespace ui

/-- Modelled from the spec: the `Role` record `(id, parent_id, full_name)`
of the data model, defined in the repository's roles module (imported by
ui.py as `.roles`, not part of backend.py/ui.py/utils.py): a node in a
shallow role hierarchy whose `parent_id` links it to a team. -/
structure Role where
  id : String
  parent_id : Option String
  full_name : String
  deriving DecidableEq

/-- Modelled from the spec: `NEVER_SAVE_ROLE_ID`, imported by ui.py from
the repository's roles module; the spec's data model fixes the sentinel
meaning "never ask again" to `"0"`. -/
def NEVER_SAVE_ROLE_ID : String := "0"

/-- Value carried by an `Option` namedtuple in ui.py: a `Role`, a string
(the `"i"` / `"c"` trailing options), or `None` (the separator). -/
inductive UIVal where
  | roleV (r : Role)
  | strV (s : String)
  | noneV
  deriving DecidableEq

/-- The `Option` namedtuple of ui.py: `(value, label, key, style)`, with
`key` defaulting to `None` and the style reduced to the only flag used,
bold highlighting. -/
structure UIOpt where
  value : UIVal
  label : String
  key : Option String
  styleBold : Bool
  deriving DecidableEq

/-- Model of `get_option_key` (ui.py): the option's explicit key when not
`None`, otherwise its position. -/
def get_option_key (pos : Int) (opt : UIOpt) : PyKey :=
  match opt.key with
  | some k => .strK k
  | none => .intK pos

/-- Model of `options_by_key` (ui.py): each option paired with its key. -/
def optionsByKey (options : List UIOpt) : List (PyKey × UIOpt) :=
  (enumFrom 0 options).map (fun p => (get_option_key p.1 p.2, p.2))

/-- Model of `dict(options_by_key)[k]`: lookup where a later duplicate key
would shadow an earlier one, `none` for `KeyError`. -/
def uiDictLookup (l : List (PyKey × UIOpt)) (k : PyKey) : Option UIOpt :=
  (l.reverse.find? (fun p => decide (p.1 = k))).map (·.2)

/-- Model of the `default_option_id` computation (ui.py): the first key
whose option has the default's value, `none` when there is no default or
no match (`StopIteration`). -/
def default_option_id (byKey : List (PyKey × UIOpt)) (dflt : Option UIOpt) : Option PyKey :=
  match dflt with
  | none => none
  | some d => (byKey.find? (fun p => decide (p.2.value = d.value))).map (·.1)

/-- Model of Python `str()` on a prompt key, as `str(default_option_id)`. -/
def keyStr : PyKey → List Char
  | .intK n => (toString n).data
  | .strK s => s.data

/-- The keys of the options that `prompt_options` actually displays: an
option line `[key] label` is printed only when the option's value is not
`None`. -/
def displayedKeys (options : List UIOpt) : List PyKey :=
  ((optionsByKey options).filter (fun p => decide (¬ p.2.value = .noneV))).map (·.1)

/-- Outcome of the `prompt_options` input loop. -/
inductive UIPromptOutcome where
  | value (v : UIVal)
  | aborted
  | hang
  deriving DecidableEq

/-- The `while True` loop of `prompt_options` (ui.py): `click.prompt`
substitutes the stringified default id for an empty input (and re-prompts
on empty input without a default); a recognised key returns that option's
value; anything else re-prompts; `Ctrl-C` propagates `Abort`. -/
def prompt_options_go (byKey : List (PyKey × UIOpt)) (defId : Option PyKey) :
    List UserInput → UIPromptOutcome
  | [] => .hang
  | .abort :: _ => .aborted
  | .text s :: rest =>
    match (if s.length = 0 then defId.map keyStr else some s) with
    | none => prompt_options_go byKey defId rest
    | some raw =>
      match uiDictLookup byKey (inputKey raw) with
      | some o => .value o.value
      | none => prompt_options_go byKey defId rest

/-- Model of `prompt_options` (ui.py). -/
def prompt_options (options : List UIOpt) (dflt : Option UIOpt)
    (inputs : List UserInput) : UIPromptOutcome :=
  prompt_options_go (optionsByKey options)
    (default_option_id (optionsByKey options) dflt) inputs

/-- Model of `role_to_option` (ui.py): a role option labelled with the
role's full name, highlighted when its parent is the project's team
(`role.parent_id and role.parent_id == project_team`). -/
def role_to_option (project_team : Option String) (role : Role) : UIOpt :=
  { value := .roleV role, label := role.full_name, key := none,
    styleBold := match role.parent_id with
                 | none => false
                 | some p => !decide (p = "") && decide (project_team = some p) }

/-- Strict order on roles by full name, the key of the
`sorted(roles, key=lambda role: role.full_name)` call. -/
def roleLt (a b : Role) : Bool := charListLt a.full_name.data b.full_name.data

/-- The option list built by `input_role` (ui.py): roles sorted by full
name, a separator, the individual-action option and the cancel option. -/
def input_role_options (roles : List Role) (project_team : Option String) : List UIOpt :=
  ((insertionSort roleLt roles).map (role_to_option project_team))
  ++ [{ value := .noneV, label := "-----", key := none, styleBold := false },
      { value := .strV "i", label := "Individual action", key := some "i", styleBold := false },
      { value := .strV "c", label := "Cancel, skip this entry for now", key := some "c", styleBold := false }]

/-- Outcome of `input_role` (ui.py): `CancelInput`, a selected role
(`none` for individual action), or an exhausted input script. -/
inductive RoleSelection where
  | cancel
  | selected (role : Option Role)
  | hang
  deriving DecidableEq

/-- Model of `input_role` (ui.py): prompt over the option list; an `Abort`
is caught and treated as cancel; cancel raises `CancelInput`, individual
action becomes `None`.  The wildcard branch covers the separator value
`None`, which Python returns unchanged and which downstream is
indistinguishable from individual action. -/
def input_role (roles : List Role) (project_team : Option String)
    (default_role : Option Role) (inputs : List UserInput) : RoleSelection :=
  match prompt_options (input_role_options roles project_team)
      (default_role.map (role_to_option project_team)) inputs with
  | .hang => .hang
  | .aborted => .cancel
  | .value v =>
    if v = .strV "c" then .cancel
    else if v = .strV "i" then .selected none
    else match v with
         | .roleV r => .selected (some r)
         | _ => .selected none

/-- A project as read from the host projects database; only its team is
used here. -/
structure Project where
  team : Option String
  deriving DecidableEq

/-- Result of `prompt_role` (ui.py). -/
inductive PromptRoleResult where
  | ok (role : Option Role)
  | pushEntryFailed (msg : String)
  | uncaught
  | hang
  deriving DecidableEq

/-- Observable events of one `prompt_role` call. -/
inductive UIEvent where
  | persistPromptShown
  deriving DecidableEq

/-- Everything observable about one `prompt_role` call. -/
structure PromptRoleOutput where
  result : PromptRoleResult
  events : List UIEvent
  state : PluginState String
  deriving DecidableEq

/-- Model of `prompt_role` (ui.py): look up the entry's mapping and the
project team, run `input_role` (`CancelInput` becomes
`PushEntryFailed("Skipped")`); unless no role was chosen or the alias
carries the never-ask sentinel, ask the persistence question and on `y`
persist the chosen role's id, on `N` the sentinel; an abort at the
question becomes `PushEntryFailed("Skipped")`. -/
def prompt_role (st : PluginState String) (projects_db : String → String → Option Project)
    (entry : Entry) (roles : List Role) (default_role : Option Role) (user : UserIO) :
    PromptRoleOutput :=
  match dbLookup st.db entry.ealias with
  | none => ⟨.uncaught, [], st⟩
  | some mapping =>
    match mapping.mapping[0]? with
    | none => ⟨.uncaught, [], st⟩
    | some pid =>
      let project_team := match projects_db pid mapping.backend with
                          | some p => p.team
                          | none => none
      match input_role roles project_team default_role user.roleInputs with
      | .hang => ⟨.hang, [], st⟩
      | .cancel => ⟨.pushEntryFailed "Skipped", [], st⟩
      | .selected none => ⟨.ok none, [], st⟩
      | .selected (some r) =>
        if get_role_id_from_alias st.db entry.ealias = some NEVER_SAVE_ROLE_ID then
          ⟨.ok (some r), [], st⟩
        else
          let evs := [UIEvent.persistPromptShown]
          match user.persistAnswer with
          | .abort => ⟨.pushEntryFailed "Skipped", evs, st⟩
          | .yes =>
            match dbLookup st.db entry.ealias with
            | none => ⟨.uncaught, evs, st⟩
            | some mapping2 =>
              match update_alias_mapping st.settings st.db entry.ealias
                  (mapping2.mapping.take 2 ++ [r.id]) with
              | none => ⟨.uncaught, evs, st⟩
              | some (settings2, db2) => ⟨.ok (some r), evs, ⟨db2, settings2⟩⟩
          | .no => ⟨.ok (some r), evs, st⟩
          | .never =>
            match dbLookup st.db entry.ealias with
            | none => ⟨.uncaught, evs, st⟩
            | some mapping2 =>
              match update_alias_mapping st.settings st.db entry.ealias
                  (mapping2.mapping.take 2 ++ [NEVER_SAVE_ROLE_ID]) with
              | none => ⟨.uncaught, evs, st⟩
              | some (settings2, db2) => ⟨.ok (some r), evs, ⟨db2, settings2⟩⟩

end ui

/-- Number of interactive role prompts among the events of a push. -/
def countPrompts (evs : List backend.Event) : Nat :=
  (evs.filter fun e => match e with | .rolePromptShown => true | _ => false).length

/-- Number of persistence questions among the events of a push. -/
def countPersistPrompts (evs : List backend.Event) : Nat :=
  (evs.filter fun e => match e with | .persistPromptShown => true | _ => false).length

/-- Number of HTTP pushes among the events of a push. -/
def countPushes (evs : List backend.Event) : Nat :=
  (evs.filter fun e => match e with | .pushed _ => true | _ => false).length

/-- The parameters of the first push among the events, when any. -/
def firstPush (evs : List backend.Event) : Option PushParams :=
  (evs.find? fun e => match e with | .pushed _ => true | _ => false).bind
    fun e => match e with | .pushed p => some p | _ => none

/-- Push parameters for `entry` from mapping elements `p`, `a`; used to state
the push-flow theorems compactly. -/
def mkParams (p a : Int) (role_id : Option Int) (individual_action : Option Bool)
    (date : String) (entry : Entry) : PushParams :=
  { project_id := p, activity_id := a, role_id := role_id,
    individual_action := individual_action, time := entry.hours, date := date,
    description := entry.description }

theorem charListLt_asymm (a b : List Char) (h : charListLt a b = true) :
    charListLt b a = false := by
  induction a generalizing b with
  | nil =>
    cases b with
    | nil => simp [charListLt] at h
    | cons d bs => simp [charListLt]
  | cons c as ih =>
    cases b with
    | nil => simp [charListLt] at h
    | cons d bs =>
      unfold charListLt at h ⊢
      by_cases h1 : c.toNat < d.toNat
      · have h2 : ¬ d.toNat < c.toNat := by omega
        simp [h1, h2]
      · by_cases h2 : d.toNat < c.toNat
        · simp [h1, h2] at h
        · simp [h1, h2] at h ⊢
          exact ih bs h

theorem charListLt_trans (a b c : List Char) (hab : charListLt a b = true)
    (hbc : charListLt b c = true) : charListLt a c = true := by
  induction a generalizing b c with
  | nil =>
    cases c with
    | nil =>
      cases b with
      | nil => simp [charListLt] at hab
      | cons y bs => simp [charListLt] at hbc
    | cons z cs => simp [charListLt]
  | cons x as ih =>
    cases b with
    | nil => simp [charListLt] at hab
    | cons y bs =>
      cases c with
      | nil => simp [charListLt] at hbc
      | cons z cs =>
        unfold charListLt at hab hbc ⊢
        by_cases h1 : x.toNat < y.toNat
        · by_cases h2 : y.toNat < z.toNat
          · have h3 : x.toNat < z.toNat := by omega
            simp [h3]
          · by_cases h2b : z.toNat < y.toNat
            · simp [h2, h2b] at hbc
            · have h3 : x.toNat < z.toNat := by omega
              simp [h3]
        · by_cases h1b : y.toNat < x.toNat
          · simp [h1, h1b] at hab
          · simp [h1, h1b] at hab
            by_cases h2 : y.toNat < z.toNat
            · have h3 : x.toNat < z.toNat := by omega
              simp [h3]
            · by_cases h2b : z.toNat < y.toNat
              · simp [h2, h2b] at hbc
              · simp [h2, h2b] at hbc
                have h3 : ¬ x.toNat < z.toNat := by omega
                have h3b : ¬ z.toNat < x.toNat := by omega
                simp [h3, h3b]
                exact ih bs cs hab hbc

theorem mem_orderedInsert (lt : α → α → Bool) (x y : α) (l : List α) :
    y ∈ orderedInsert lt x l ↔ y = x ∨ y ∈ l := by
  induction l with
  | nil => simp [orderedInsert]
  | cons z t ih =>
    by_cases h : lt x z
    · simp [orderedInsert, h]
    · simp [orderedInsert, h, ih]
      tauto

theorem mem_insertionSort (lt : α → α → Bool) (x : α) (l : List α) :
    x ∈ insertionSort lt l ↔ x ∈ l := by
  induction l with
  | nil => simp [insertionSort]
  | cons y t ih => simp [insertionSort, mem_orderedInsert, ih]

theorem perm_orderedInsert (lt : α → α → Bool) (x : α) (l : List α) :
    List.Perm (orderedInsert lt x l) (x :: l) := by
  induction l with
  | nil => simp [orderedInsert]
  | cons y t ih =>
    by_cases h : lt x y
    · simp [orderedInsert, h]
    · simp only [orderedInsert, h, if_neg, Bool.false_eq_true, not_false_iff, ite_false]
      exact (ih.cons y).trans (List.Perm.swap x y t)

theorem perm_insertionSort (lt : α → α → Bool) (l : List α) :
    List.Perm (insertionSort lt l) l := by
  induction l with
  | nil => simp [insertionSort]
  | cons x t ih => exact (perm_orderedInsert lt x (insertionSort lt t)).trans (ih.cons x)

theorem pairwise_orderedInsert (lt : α → α → Bool)
    (hasymm : ∀ a b, lt a b = true → lt b a = false)
    (htrans : ∀ a b c, lt a b = true → lt b c = true → lt a c = true)
    (x : α) (l : List α) (hl : l.Pairwise (fun a b => lt b a = false)) :
    (orderedInsert lt x l).Pairwise (fun a b => lt b a = false) := by
  induction l with
  | nil => simp [orderedInsert]
  | cons y t ih =>
    rcases List.pairwise_cons.mp hl with ⟨hy, ht⟩
    by_cases h : lt x y
    · simp only [orderedInsert, h, ite_true]
      refine List.pairwise_cons.mpr ⟨?_, hl⟩
      intro z hz
      rcases List.mem_cons.mp hz with rfl | hz
      · exact hasymm _ _ h
      · by_contra hzx
        have hzx' : lt z x = true := by
          cases hzz : lt z x
          · exact absurd hzz hzx
          · rfl
        have hzy : lt z y = true := htrans z x y hzx' h
        rw [hy z hz] at hzy
        exact Bool.noConfusion hzy
    · simp only [orderedInsert, h, ite_false, Bool.false_eq_true, if_neg, not_false_iff]
      refine List.pairwise_cons.mpr ⟨?_, ih ht⟩
      intro z hz
      rcases (mem_orderedInsert lt x z t).mp hz with hz | hz
      · subst hz
        simpa using h
      · exact hy z hz

theorem pairwise_insertionSort (lt : α → α → Bool)
    (hasymm : ∀ a b, lt a b = true → lt b a = false)
    (htrans : ∀ a b c, lt a b = true → lt b c = true → lt a c = true)
    (l : List α) :
    (insertionSort lt l).Pairwise (fun a b => lt b a = false) := by
  induction l with
  | nil => simp [insertionSort]
  | cons x t ih => exact pairwise_orderedInsert lt hasymm htrans x (insertionSort lt t) ih

theorem enumFrom_mem (l : List α) (j i : Int) (x : α) (h : (i, x) ∈ enumFrom j l) :
    x ∈ l := by
  induction l generalizing j with
  | nil => simp [enumFrom] at h
  | cons y t ih =>
    simp only [enumFrom, List.mem_cons] at h
    rcases h with h | h
    · have : x = y := congrArg Prod.snd h
      simp [this]
    · exact List.mem_cons_of_mem y (ih (j + 1) h)

theorem dictLookup_mem (l : List (Option PyKey × backend.Choice)) (k : Option PyKey)
    (c : backend.Choice) (h : backend.dictLookup l k = some c) : (k, c) ∈ l := by
  unfold backend.dictLookup at h
  cases hf : l.reverse.find? (fun p => decide (p.1 = k)) with
  | none => rw [hf] at h; simp at h
  | some pc =>
    rw [hf] at h
    simp only [Option.map_some'] at h
    have hmem := List.mem_of_find?_eq_some hf
    have hpred := List.find?_some hf
    rw [List.mem_reverse] at hmem
    rcases pc with ⟨k2, c2⟩
    simp only [decide_eq_true_eq] at hpred
    simp only [Option.some.injEq] at h
    subst hpred
    subst h
    exact hmem

theorem choicesByKey_mem (choices : List backend.Choice) (k : Option PyKey)
    (c : backend.Choice) (h : (k, c) ∈ backend.choicesByKey choices) : c ∈ choices := by
  unfold backend.choicesByKey at h
  rcases List.mem_map.mp h with ⟨⟨i, c2⟩, hmem, heq⟩
  have hc : c2 = c := congrArg Prod.snd heq
  subst hc
  exact enumFrom_mem choices 0 i c2 hmem

theorem prompt_choices_go_nil (byKey : List (Option PyKey × backend.Choice))
    (dflt : Option PyKey) : backend.prompt_choices_go byKey dflt [] = none := rfl

theorem prompt_choices_go_abort (byKey : List (Option PyKey × backend.Choice))
    (dflt : Option PyKey) (rest : List UserInput) :
    backend.prompt_choices_go byKey dflt (.abort :: rest) = some dflt := rfl

theorem prompt_choices_go_text (byKey : List (Option PyKey × backend.Choice))
    (dflt : Option PyKey) (s : List Char) (rest : List UserInput) :
    backend.prompt_choices_go byKey dflt (.text s :: rest) =
      match backend.dictLookup byKey (some (inputKey s)) with
      | some c => some c.value
      | none => backend.prompt_choices_go byKey dflt rest := rfl

theorem prompt_choices_go_mem (byKey : List (Option PyKey × backend.Choice))
    (dflt : Option PyKey) (inputs : List UserInput) (v : Option PyKey)
    (h : backend.prompt_choices_go byKey dflt inputs = some v) :
    v = dflt ∨ ∃ k c, (k, c) ∈ byKey ∧ c.value = v := by
  induction inputs with
  | nil =>
    rw [prompt_choices_go_nil] at h
    exact Option.noConfusion h
  | cons i rest ih =>
    cases i with
    | abort =>
      left
      rw [prompt_choices_go_abort] at h
      exact (Option.some.inj h).symm
    | text s =>
      rw [prompt_choices_go_text] at h
      cases hd : backend.dictLookup byKey (some (inputKey s)) with
      | none =>
        rw [hd] at h
        exact ih h
      | some c =>
        rw [hd] at h
        simp only [Option.some.injEq] at h
        right
        exact ⟨some (inputKey s), c, dictLookup_mem _ _ _ hd, h⟩

theorem input_role_selected_mem (roles : List (Int × String)) (inputs : List UserInput)
    (r : Int) (h : backend.input_role roles inputs = .selected (some r)) :
    ∃ name, (r, name) ∈ roles := by
  unfold backend.input_role at h
  cases hp : backend.prompt_choices (backend.input_role_choices roles)
      (some (.strK "c")) inputs with
  | none => rw [hp] at h; exact absurd h (by simp)
  | some v =>
    rw [hp] at h
    dsimp only at h
    by_cases hc : v = some (.strK "c")
    · rw [if_pos hc] at h
      exact absurd h (by simp)
    rw [if_neg hc] at h
    by_cases hi : v = some (.strK "i")
    · rw [if_pos hi] at h
      exact absurd h (by simp)
    rw [if_neg hi] at h
    have hv : v = some (.intK r) := by
      match v, h with
      | some (.intK r2), h =>
        have : r2 = r := by simpa using h
        simp [this]
    rcases prompt_choices_go_mem _ _ _ _ hp with hd | ⟨k, c, hmem, hval⟩
    · rw [hd] at hv
      exact absurd hv (by simp)
    · have hcmem : c ∈ backend.input_role_choices roles := choicesByKey_mem _ _ _ hmem
      rw [hv] at hval
      unfold backend.input_role_choices at hcmem
      rcases List.mem_append.mp hcmem with hrole | htrail
      · rcases List.mem_map.mp hrole with ⟨it, hit, heq⟩
        have hval2 : it.1 = r := by
          rw [← heq] at hval
          simpa using hval
        refine ⟨it.2, ?_⟩
        have : it ∈ roles := (mem_insertionSort backend.roleItemLt it roles).mp hit
        rw [← hval2]
        simpa using this
      · rcases List.mem_cons.mp htrail with rfl | htrail2
        · simp at hval
        rcases List.mem_cons.mp htrail2 with rfl | htrail3
        · simp at hval
        rcases List.mem_cons.mp htrail3 with rfl | htrail4
        · simp at hval
        · simp at htrail4

theorem rolesLookup_isSome (roles : List (Int × String)) (r : Int) (name : String)
    (h : (r, name) ∈ roles) : (backend.rolesLookup roles r).isSome := by
  unfold backend.rolesLookup
  cases hf : List.find? (fun p => decide (p.1 = r)) roles with
  | some x => simp [hf]
  | none =>
    exfalso
    have := List.find?_eq_none.mp hf (r, name) h
    simp at this

theorem uiDictLookup_mem (l : List (PyKey × ui.UIOpt)) (k : PyKey) (o : ui.UIOpt)
    (h : ui.uiDictLookup l k = some o) : (k, o) ∈ l := by
  unfold ui.uiDictLookup at h
  cases hf : l.reverse.find? (fun p => decide (p.1 = k)) with
  | none => rw [hf] at h; simp at h
  | some po =>
    rw [hf] at h
    simp only [Option.map_some'] at h
    have hmem := List.mem_of_find?_eq_some hf
    have hpred := List.find?_some hf
    rw [List.mem_reverse] at hmem
    rcases po with ⟨k2, o2⟩
    simp only [decide_eq_true_eq] at hpred
    simp only [Option.some.injEq] at h
    subst hpred
    subst h
    exact hmem

theorem optionsByKey_mem (options : List ui.UIOpt) (k : PyKey) (o : ui.UIOpt)
    (h : (k, o) ∈ ui.optionsByKey options) : o ∈ options := by
  unfold ui.optionsByKey at h
  rcases List.mem_map.mp h with ⟨⟨i, o2⟩, hmem, heq⟩
  have ho : o2 = o := congrArg Prod.snd heq
  subst ho
  exact enumFrom_mem options 0 i o2 hmem

theorem prompt_options_go_nil (byKey : List (PyKey × ui.UIOpt)) (defId : Option PyKey) :
    ui.prompt_options_go byKey defId [] = .hang := rfl

theorem prompt_options_go_abort (byKey : List (PyKey × ui.UIOpt)) (defId : Option PyKey)
    (rest : List UserInput) :
    ui.prompt_options_go byKey defId (.abort :: rest) = .aborted := rfl

theorem prompt_options_go_text (byKey : List (PyKey × ui.UIOpt)) (defId : Option PyKey)
    (s : List Char) (rest : List UserInput) :
    ui.prompt_options_go byKey defId (.text s :: rest) =
      match (if s.length = 0 then defId.map ui.keyStr else some s) with
      | none => ui.prompt_options_go byKey defId rest
      | some raw =>
        match ui.uiDictLookup byKey (inputKey raw) with
        | some o => .value o.value
        | none => ui.prompt_options_go byKey defId rest := rfl

theorem prompt_options_go_mem (byKey : List (PyKey × ui.UIOpt)) (defId : Option PyKey)
    (inputs : List UserInput) (v : ui.UIVal)
    (h : ui.prompt_options_go byKey defId inputs = .value v) :
    ∃ k o, (k, o) ∈ byKey ∧ o.value = v := by
  induction inputs with
  | nil =>
    rw [prompt_options_go_nil] at h
    exact absurd h (by simp)
  | cons i rest ih =>
    cases i with
    | abort =>
      rw [prompt_options_go_abort] at h
      exact absurd h (by simp)
    | text s =>
      rw [prompt_options_go_text] at h
      cases hraw : (if s.length = 0 then defId.map ui.keyStr else some s) with
      | none =>
        rw [hraw] at h
        exact ih h
      | some raw =>
        rw [hraw] at h
        dsimp only at h
        cases hd : ui.uiDictLookup byKey (inputKey raw) with
        | none =>
          rw [hd] at h
          exact ih h
        | some o =>
          rw [hd] at h
          simp only [ui.UIPromptOutcome.value.injEq] at h
          exact ⟨inputKey raw, o, uiDictLookup_mem _ _ _ hd, h⟩

theorem prompt_options_go_reprompt (byKey : List (PyKey × ui.UIOpt)) (defId : Option PyKey)
    (s : List Char) (rest : List UserInput) (hs : s.length ≠ 0)
    (hl : ui.uiDictLookup byKey (inputKey s) = none) :
    ui.prompt_options_go byKey defId (.text s :: rest) =
      ui.prompt_options_go byKey defId rest := by
  rw [prompt_options_go_text]
  rw [if_neg hs]
  dsimp only
  rw [hl]

theorem prompt_options_go_empty_default (byKey : List (PyKey × ui.UIOpt)) (k : PyKey)
    (rest : List UserInput) (hk : (ui.keyStr k).length ≠ 0) :
    ui.prompt_options_go byKey (some k) (.text [] :: rest) =
      ui.prompt_options_go byKey (some k) (.text (ui.keyStr k) :: rest) := by
  rw [prompt_options_go_text, prompt_options_go_text]
  rw [if_neg hk]
  simp only [List.length_nil, ite_true, Option.map_some']

theorem dbLookup_dbInsert_self (db : AliasDB α) (a : String) (m : Mapping α) :
    dbLookup (dbInsert db a m) a = some m := by
  induction db with
  | nil => simp [dbInsert, dbLookup, List.find?]
  | cons p rest ih =>
    rcases p with ⟨b, n⟩
    by_cases h : b = a
    · simp [dbInsert, h, dbLookup, List.find?]
    · simp only [dbInsert, h, ite_false, if_neg, not_false_iff]
      simpa [dbLookup, List.find?, h] using ih

theorem countPrompts_append (a b : List backend.Event) :
    countPrompts (a ++ b) = countPrompts a + countPrompts b := by
  simp [countPrompts, List.filter_append]

theorem countPushes_append (a b : List backend.Event) :
    countPushes (a ++ b) = countPushes a + countPushes b := by
  simp [countPushes, List.filter_append]

theorem countPersistPrompts_append (a b : List backend.Event) :
    countPersistPrompts (a ++ b) = countPersistPrompts a + countPersistPrompts b := by
  simp [countPersistPrompts, List.filter_append]

theorem push_finish_events_state (st : PluginState Int) (roles : List (Int × String))
    (evs : List backend.Event) (rid : Option Int) (j : RespJson) :
    (backend.push_finish st roles evs rid j).events = evs ∧
    (backend.push_finish st roles evs rid j).state = st := by
  unfold backend.push_finish
  constructor <;> (repeat' split) <;> rfl

theorem push_retry_events_state (st : PluginState Int) (roles : List (Int × String))
    (server : Nat → Response) (date : String) (entry : Entry) (rid : Option Int)
    (evs : List backend.Event) (m : Mapping Int) (p a : Int) (rest : List Int)
    (hdb : dbLookup st.db entry.ealias = some m)
    (hm : m.mapping = p :: a :: rest) :
    (backend.push_retry st roles server date entry rid evs).events =
      evs ++ [.pushed (mkParams p a rid (some rid.isNone) date entry)] ∧
    (backend.push_retry st roles server date entry rid evs).state = st := by
  unfold backend.push_retry backend._push_entry backend.attEvents
  rw [hdb]
  dsimp only
  rw [hm]
  simp only [List.getElem?_cons_zero, List.getElem?_cons_succ]
  cases hj : (server 1).json with
  | none =>
    exact ⟨rfl, rfl⟩
  | some j =>
    dsimp only
    by_cases hro : (server 1).ok = false ∧ j.errorCode = some "role_invalid"
    · rw [if_pos hro]
      exact ⟨rfl, rfl⟩
    · rw [if_neg hro]
      exact ⟨(push_finish_events_state _ _ _ _ _).1, (push_finish_events_state _ _ _ _ _).2⟩

theorem push_entry_role_needed_cases (st : PluginState Int) (roles : List (Int × String))
    (server : Nat → Response) (user : UserIO) (date : String) (entry : Entry)
    (m : Mapping Int) (p a : Int) (rest : List Int) (j0 : RespJson)
    (hdb : dbLookup st.db entry.ealias = some m)
    (hm : m.mapping = p :: a :: rest)
    (hs0 : server 0 = { ok := false, json := some j0 })
    (hec : j0.errorCode = some "role_needed") :
    backend.push_entry st roles server user date entry =
      match backend.input_role roles user.roleInputs with
      | .hang =>
        ⟨.hang,
         [.pushed (mkParams p a (if rest[0]? = some 0 then none else rest[0]?) none date entry),
          .rolePromptShown], st⟩
      | .cancel =>
        ⟨.pushEntryFailed "Skipped",
         [.pushed (mkParams p a (if rest[0]? = some 0 then none else rest[0]?) none date entry),
          .rolePromptShown], st⟩
      | .selected rid =>
        backend.persist_and_retry st roles server user date entry rest[0]? rid
          [.pushed (mkParams p a (if rest[0]? = some 0 then none else rest[0]?) none date entry),
           .rolePromptShown] := by
  have hne : ¬ (some "role_needed" = some ("role_invalid" : String)) := by decide
  unfold backend.push_entry backend._push_entry backend.attEvents get_role_from_entry
  rw [hdb, hs0]
  dsimp only
  rw [hm]
  simp only [List.getElem?_cons_zero, List.getElem?_cons_succ]
  rw [hec]
  simp only [hne, and_false, false_and, ite_false, not_false_iff, and_true, and_self, ite_true]
  rw [hec]
  simp only [Option.some.injEq, and_true, true_and, and_self, ite_true]
  rfl

theorem persist_none (st : PluginState Int) (roles : List (Int × String))
    (server : Nat → Response) (user : UserIO) (date : String) (entry : Entry)
    (arid : Option Int) (evs : List backend.Event) :
    backend.persist_and_retry st roles server user date entry arid none evs =
      backend.push_retry st roles server date entry none evs := rfl

theorem persist_sentinel (st : PluginState Int) (roles : List (Int × String))
    (server : Nat → Response) (user : UserIO) (date : String) (entry : Entry)
    (r : Int) (evs : List backend.Event) :
    backend.persist_and_retry st roles server user date entry (some 0) (some r) evs =
      backend.push_retry st roles server date entry (some r) evs := by
  unfold backend.persist_and_retry
  dsimp only
  rw [if_pos rfl]

theorem persist_some (st : PluginState Int) (roles : List (Int × String))
    (server : Nat → Response) (user : UserIO) (date : String) (entry : Entry)
    (arid : Option Int) (r : Int) (evs : List backend.Event) (name : String)
    (m : Mapping Int)
    (harid : ¬ arid = some 0)
    (hrl : backend.rolesLookup roles r = some name)
    (hdb : dbLookup st.db entry.ealias = some m) :
    backend.persist_and_retry st roles server user date entry arid (some r) evs =
      match user.persistAnswer with
      | .abort => ⟨.pushEntryFailed "Skipped", evs ++ [.persistPromptShown], st⟩
      | .yes =>
        backend.push_retry
          ⟨dbInsert st.db entry.ealias ⟨m.mapping.take 2 ++ [r], m.backend⟩,
           ⟨dbInsert st.settings.aliases entry.ealias ⟨m.mapping.take 2 ++ [r], m.backend⟩,
            st.settings.configWrites + 1⟩⟩
          roles server date entry (some r) (evs ++ [.persistPromptShown])
      | .no => backend.push_retry st roles server date entry (some r) (evs ++ [.persistPromptShown])
      | .never =>
        backend.push_retry
          ⟨dbInsert st.db entry.ealias ⟨m.mapping.take 2 ++ [0], m.backend⟩,
           ⟨dbInsert st.settings.aliases entry.ealias ⟨m.mapping.take 2 ++ [0], m.backend⟩,
            st.settings.configWrites + 1⟩⟩
          roles server date entry (some r) (evs ++ [.persistPromptShown]) := by
  unfold backend.persist_and_retry update_alias_mapping
  dsimp only
  rw [if_neg harid, hrl, hdb]

theorem push_entry_no_prompt (st : PluginState Int) (roles : List (Int × String))
    (server : Nat → Response) (user : UserIO) (date : String) (entry : Entry)
    (m : Mapping Int) (p a : Int) (rest : List Int)
    (hdb : dbLookup st.db entry.ealias = some m)
    (hm : m.mapping = p :: a :: rest)
    (hnr : ∀ j1, (server 0).json = some j1 → (server 0).ok = false →
      ¬ j1.errorCode = some "role_needed") :
    (backend.push_entry st roles server user date entry).events =
      [.pushed (mkParams p a (if rest[0]? = some 0 then none else rest[0]?) none date entry)] ∧
    (backend.push_entry st roles server user date entry).state = st := by
  unfold backend.push_entry backend._push_entry backend.attEvents get_role_from_entry
  rw [hdb]
  dsimp only
  rw [hm]
  simp only [List.getElem?_cons_zero, List.getElem?_cons_succ]
  cases hj : (server 0).json with
  | none => exact ⟨rfl, rfl⟩
  | some j1 =>
    dsimp only
    by_cases hro : (server 0).ok = false ∧ j1.errorCode = some "role_invalid"
    · rw [if_pos hro]
      exact ⟨rfl, rfl⟩
    · rw [if_neg hro]
      dsimp only
      have hcond : ¬ ((server 0).ok = false ∧ j1.errorCode = some "role_needed") := by
        rintro ⟨hok, hrn⟩
        exact hnr j1 hj hok hrn
      rw [if_neg hcond]
      exact ⟨(push_finish_events_state _ _ _ _ _).1, (push_finish_events_state _ _ _ _ _).2⟩

/-- C1: for an entry whose alias mapping carries no role id, when the server
answers the bare push with a falsy `role_needed` response, `push_entry`
shows exactly one interactive role prompt, performs at most one retry push
(exactly one whenever the role selection completes and the persistence
question is not aborted), and never shows a second prompt or sends a third
push, whatever the retry's outcome. -/
theorem push_entry_one_prompt_one_retry
    (st : PluginState Int) (roles : List (Int × String)) (server : Nat → Response)
    (user : UserIO) (date : String) (entry : Entry) (m : Mapping Int) (p a : Int)
    (j0 : RespJson)
    (hdb : dbLookup st.db entry.ealias = some m)
    (hm : m.mapping = [p, a])
    (hs0 : server 0 = { ok := false, json := some j0 })
    (hec : j0.errorCode = some "role_needed") :
    countPrompts (backend.push_entry st roles server user date entry).events = 1 ∧
    countPushes (backend.push_entry st roles server user date entry).events ≤ 2 ∧
    (∀ rsel, backend.input_role roles user.roleInputs = .selected rsel →
      (rsel = none ∨ ¬ user.persistAnswer = .abort) →
      countPushes (backend.push_entry st roles server user date entry).events = 2) := by
  have hcase : backend.push_entry st roles server user date entry =
      match backend.input_role roles user.roleInputs with
      | .hang =>
        ⟨.hang, [.pushed (mkParams p a none none date entry), .rolePromptShown], st⟩
      | .cancel =>
        ⟨.pushEntryFailed "Skipped",
         [.pushed (mkParams p a none none date entry), .rolePromptShown], st⟩
      | .selected rid =>
        backend.persist_and_retry st roles server user date entry none rid
          [.pushed (mkParams p a none none date entry), .rolePromptShown] :=
    push_entry_role_needed_cases st roles server user date entry m p a [] j0 hdb hm hs0 hec
  rw [hcase]
  cases hir : backend.input_role roles user.roleInputs with
  | hang =>
    refine ⟨by simp [countPrompts], by simp [countPushes], ?_⟩
    intro rsel hsel
    exact absurd hsel (by simp)
  | cancel =>
    refine ⟨by simp [countPrompts], by simp [countPushes], ?_⟩
    intro rsel hsel
    exact absurd hsel (by simp)
  | selected rid =>
    cases rid with
    | none =>
      dsimp only
      rw [persist_none]
      rcases push_retry_events_state st roles server date entry none
        [.pushed (mkParams p a none none date entry), .rolePromptShown] m p a []
        hdb hm with ⟨he, _⟩
      rw [he]
      refine ⟨by simp [countPrompts], by simp [countPushes], ?_⟩
      intro rsel hsel hok
      simp [countPushes]
    | some r =>
      dsimp only
      rcases input_role_selected_mem roles user.roleInputs r hir with ⟨name, hmem⟩
      rcases Option.isSome_iff_exists.mp (rolesLookup_isSome roles r name hmem) with ⟨nm2, hrl⟩
      rw [persist_some st roles server user date entry none r
        [.pushed (mkParams p a none none date entry), .rolePromptShown] nm2 m
        (by simp) hrl hdb]
      cases hans : user.persistAnswer with
      | abort =>
        refine ⟨by simp [countPrompts], by simp [countPushes], ?_⟩
        intro rsel hsel hok
        have hrs : rsel = some r := by
          have := hsel.symm
          simpa using this
        subst hrs
        rcases hok with hok | hok
        · exact absurd hok (by simp)
        · exact absurd rfl hok
      | yes =>
        dsimp only
        have hm2 : (⟨m.mapping.take 2 ++ [r], m.backend⟩ : Mapping Int).mapping =
            p :: a :: [r] := by simp [hm]
        rcases push_retry_events_state
          ⟨dbInsert st.db entry.ealias ⟨m.mapping.take 2 ++ [r], m.backend⟩,
           ⟨dbInsert st.settings.aliases entry.ealias ⟨m.mapping.take 2 ++ [r], m.backend⟩,
            st.settings.configWrites + 1⟩⟩
          roles server date entry (some r)
          ([.pushed (mkParams p a none none date entry), .rolePromptShown] ++
            [.persistPromptShown])
          ⟨m.mapping.take 2 ++ [r], m.backend⟩ p a [r]
          (dbLookup_dbInsert_self _ _ _) hm2 with ⟨he, _⟩
        rw [he]
        exact ⟨by simp [countPrompts], by simp [countPushes],
          fun rsel hsel hok => by simp [countPushes]⟩
      | no =>
        dsimp only
        rcases push_retry_events_state st roles server date entry (some r)
          ([.pushed (mkParams p a none none date entry), .rolePromptShown] ++
            [.persistPromptShown]) m p a [] hdb hm with ⟨he, _⟩
        rw [he]
        exact ⟨by simp [countPrompts], by simp [countPushes],
          fun rsel hsel hok => by simp [countPushes]⟩
      | never =>
        dsimp only
        have hm2 : (⟨m.mapping.take 2 ++ [0], m.backend⟩ : Mapping Int).mapping =
            p :: a :: [0] := by simp [hm]
        rcases push_retry_events_state
          ⟨dbInsert st.db entry.ealias ⟨m.mapping.take 2 ++ [0], m.backend⟩,
           ⟨dbInsert st.settings.aliases entry.ealias ⟨m.mapping.take 2 ++ [0], m.backend⟩,
            st.settings.configWrites + 1⟩⟩
          roles server date entry (some r)
          ([.pushed (mkParams p a none none date entry), .rolePromptShown] ++
            [.persistPromptShown])
          ⟨m.mapping.take 2 ++ [0], m.backend⟩ p a [0]
          (dbLookup_dbInsert_self _ _ _) hm2 with ⟨he, _⟩
        rw [he]
        exact ⟨by simp [countPrompts], by simp [countPushes],
          fun rsel hsel hok => by simp [countPushes]⟩

theorem push_retry_events_append (st2 : PluginState Int) (roles : List (Int × String))
    (server : Nat → Response) (date : String) (entry : Entry) (rid2 : Option Int)
    (evs2 : List backend.Event) :
    ∃ t, (backend.push_retry st2 roles server date entry rid2 evs2).events = evs2 ++ t := by
  unfold backend.push_retry
  rcases h : backend._push_entry st2.db date entry rid2 (some rid2.isNone) (server 1)
    with ⟨sent, result⟩
  dsimp only
  cases result with
  | error e =>
    cases e with
    | pushEntryFailed msg => exact ⟨_, rfl⟩
    | uncaught => exact ⟨_, rfl⟩
  | ok pr =>
    rcases pr with ⟨resp, j⟩
    exact ⟨_, (push_finish_events_state _ _ _ _ _).1⟩

theorem persist_and_retry_events_append (st : PluginState Int) (roles : List (Int × String))
    (server : Nat → Response) (user : UserIO) (date : String) (entry : Entry)
    (arid rid : Option Int) (evs : List backend.Event) :
    ∃ t, (backend.persist_and_retry st roles server user date entry arid rid evs).events =
      evs ++ t := by
  cases rid with
  | none => exact push_retry_events_append st roles server date entry none evs
  | some r =>
    unfold backend.persist_and_retry
    dsimp only
    by_cases ha : arid = some 0
    · rw [if_pos ha]
      exact push_retry_events_append st roles server date entry (some r) evs
    · rw [if_neg ha]
      cases hrl : backend.rolesLookup roles r with
      | none => exact ⟨[], by simp⟩
      | some nm =>
        cases hans : user.persistAnswer with
        | abort => exact ⟨[.persistPromptShown], rfl⟩
        | yes =>
          cases hdbq : dbLookup st.db entry.ealias with
          | none => exact ⟨[.persistPromptShown], rfl⟩
          | some mp =>
            have hupd : update_alias_mapping st.settings st.db entry.ealias
                (mp.mapping.take 2 ++ [r]) =
                some ({ aliases := dbInsert st.settings.aliases entry.ealias
                          ⟨mp.mapping.take 2 ++ [r], mp.backend⟩,
                        configWrites := st.settings.configWrites + 1 },
                      dbInsert st.db entry.ealias ⟨mp.mapping.take 2 ++ [r], mp.backend⟩) := by
              unfold update_alias_mapping
              rw [hdbq]
            dsimp only
            rw [hupd]
            dsimp only
            rcases push_retry_events_append
              ⟨dbInsert st.db entry.ealias ⟨mp.mapping.take 2 ++ [r], mp.backend⟩,
               { aliases := dbInsert st.settings.aliases entry.ealias
                   ⟨mp.mapping.take 2 ++ [r], mp.backend⟩,
                 configWrites := st.settings.configWrites + 1 }⟩
              roles server date entry (some r) (evs ++ [.persistPromptShown]) with ⟨t2, ht2⟩
            exact ⟨[.persistPromptShown] ++ t2, by rw [ht2, List.append_assoc]⟩
        | no =>
          rcases push_retry_events_append st roles server date entry (some r)
            (evs ++ [.persistPromptShown]) with ⟨t2, ht2⟩
          exact ⟨[.persistPromptShown] ++ t2, by rw [ht2, List.append_assoc]⟩
        | never =>
          cases hdbq : dbLookup st.db entry.ealias with
          | none => exact ⟨[.persistPromptShown], rfl⟩
          | some mp =>
            have hupd : update_alias_mapping st.settings st.db entry.ealias
                (mp.mapping.take 2 ++ [0]) =
                some ({ aliases := dbInsert st.settings.aliases entry.ealias
                          ⟨mp.mapping.take 2 ++ [0], mp.backend⟩,
                        configWrites := st.settings.configWrites + 1 },
                      dbInsert st.db entry.ealias ⟨mp.mapping.take 2 ++ [0], mp.backend⟩) := by
              unfold update_alias_mapping
              rw [hdbq]
            dsimp only
            rw [hupd]
            dsimp only
            rcases push_retry_events_append
              ⟨dbInsert st.db entry.ealias ⟨mp.mapping.take 2 ++ [0], mp.backend⟩,
               { aliases := dbInsert st.settings.aliases entry.ealias
                   ⟨mp.mapping.take 2 ++ [0], mp.backend⟩,
                 configWrites := st.settings.configWrites + 1 }⟩
              roles server date entry (some r) (evs ++ [.persistPromptShown]) with ⟨t2, ht2⟩
            exact ⟨[.persistPromptShown] ++ t2, by rw [ht2, List.append_assoc]⟩

theorem push_entry_first_push (st : PluginState Int) (roles : List (Int × String))
    (server : Nat → Response) (user : UserIO) (date : String) (entry : Entry)
    (m : Mapping Int) (p a : Int) (rest : List Int)
    (hdb : dbLookup st.db entry.ealias = some m)
    (hm : m.mapping = p :: a :: rest) :
    ∃ t, (backend.push_entry st roles server user date entry).events =
      .pushed (mkParams p a (if rest[0]? = some 0 then none else rest[0]?) none date entry)
        :: t := by
  unfold backend.push_entry backend._push_entry backend.attEvents get_role_from_entry
  rw [hdb]
  dsimp only
  rw [hm]
  simp only [List.getElem?_cons_zero, List.getElem?_cons_succ]
  cases hj : (server 0).json with
  | none => exact ⟨[], rfl⟩
  | some j1 =>
    dsimp only
    by_cases hro : (server 0).ok = false ∧ j1.errorCode = some "role_invalid"
    · rw [if_pos hro]
      exact ⟨[], rfl⟩
    · rw [if_neg hro]
      dsimp only
      by_cases hrn : (server 0).ok = false ∧ j1.errorCode = some "role_needed"
      · rw [if_pos hrn]
        cases hir : backend.input_role roles user.roleInputs with
        | hang => exact ⟨[.rolePromptShown], rfl⟩
        | cancel => exact ⟨[.rolePromptShown], rfl⟩
        | selected rid =>
          dsimp only
          rcases persist_and_retry_events_append st roles server user date entry
            rest[0]? rid
            ([.pushed (mkParams p a (if rest[0]? = some 0 then none else rest[0]?)
                none date entry)] ++ [.rolePromptShown]) with ⟨t, ht⟩
          exact ⟨[.rolePromptShown] ++ t, ht.trans (by simp [mkParams])⟩
      · rw [if_neg hrn]
        exact ⟨[], (push_finish_events_state _ _ _ _ _).1⟩

/-- C2: `update_alias_mapping` writes the new mapping through to the
in-memory aliases database and to the settings store in one operation; and
when, in the role-resolution flow, the user selects a (non-sentinel) role
and answers `y`, the run's final state maps the alias to
`(project_id, activity_id, chosen_role_id)` in both stores, and every
subsequent `push_entry` for the same alias sends that role id on its first
push, showing no prompt as long as the server does not reject that push
with `role_needed`. -/
theorem update_alias_persist_and_reuse :
    (∀ (α : Type) (settings : Settings α) (db : AliasDB α) (al : String)
        (nmv : List α) (m : Mapping α),
      dbLookup db al = some m →
        update_alias_mapping settings db al nmv =
          some ({ aliases := dbInsert settings.aliases al ⟨nmv, m.backend⟩,
                  configWrites := settings.configWrites + 1 },
                dbInsert db al ⟨nmv, m.backend⟩) ∧
        dbLookup (dbInsert db al ⟨nmv, m.backend⟩) al = some ⟨nmv, m.backend⟩ ∧
        dbLookup (dbInsert settings.aliases al ⟨nmv, m.backend⟩) al = some ⟨nmv, m.backend⟩) ∧
    (∀ (st : PluginState Int) (roles : List (Int × String)) (server : Nat → Response)
        (user : UserIO) (date : String) (entry : Entry) (m : Mapping Int) (p a : Int)
        (j0 : RespJson) (r : Int),
      dbLookup st.db entry.ealias = some m →
      m.mapping = [p, a] →
      server 0 = { ok := false, json := some j0 } →
      j0.errorCode = some "role_needed" →
      backend.input_role roles user.roleInputs = .selected (some r) →
      ¬ r = 0 →
      user.persistAnswer = .yes →
      dbLookup (backend.push_entry st roles server user date entry).state.db entry.ealias =
        some ⟨[p, a, r], m.backend⟩ ∧
      dbLookup (backend.push_entry st roles server user date entry).state.settings.aliases
        entry.ealias = some ⟨[p, a, r], m.backend⟩ ∧
      (backend.push_entry st roles server user date entry).state.settings.configWrites =
        st.settings.configWrites + 1 ∧
      (∀ (server2 : Nat → Response) (user2 : UserIO),
        firstPush (backend.push_entry (backend.push_entry st roles server user date entry).state
            roles server2 user2 date entry).events =
          some (mkParams p a (some r) none date entry) ∧
        ((∀ j1, (server2 0).json = some j1 → (server2 0).ok = false →
            ¬ j1.errorCode = some "role_needed") →
          countPrompts (backend.push_entry
            (backend.push_entry st roles server user date entry).state
            roles server2 user2 date entry).events = 0))) := by
  constructor
  · intro α settings db al nmv m hdb
    refine ⟨?_, dbLookup_dbInsert_self _ _ _, dbLookup_dbInsert_self _ _ _⟩
    unfold update_alias_mapping
    rw [hdb]
  · intro st roles server user date entry m p a j0 r hdb hm hs0 hec hir hr hans
    have hcase : backend.push_entry st roles server user date entry =
        match backend.input_role roles user.roleInputs with
        | .hang =>
          ⟨.hang, [.pushed (mkParams p a none none date entry), .rolePromptShown], st⟩
        | .cancel =>
          ⟨.pushEntryFailed "Skipped",
           [.pushed (mkParams p a none none date entry), .rolePromptShown], st⟩
        | .selected rid =>
          backend.persist_and_retry st roles server user date entry none rid
            [.pushed (mkParams p a none none date entry), .rolePromptShown] :=
      push_entry_role_needed_cases st roles server user date entry m p a [] j0 hdb hm hs0 hec
    rcases input_role_selected_mem roles user.roleInputs r hir with ⟨name, hmem⟩
    rcases Option.isSome_iff_exists.mp (rolesLookup_isSome roles r name hmem) with ⟨nm2, hrl⟩
    have hpersist := persist_some st roles server user date entry none r
      [.pushed (mkParams p a none none date entry), .rolePromptShown] nm2 m
      (by simp) hrl hdb
    have hstate : (backend.push_entry st roles server user date entry).state =
        ⟨dbInsert st.db entry.ealias ⟨m.mapping.take 2 ++ [r], m.backend⟩,
         ⟨dbInsert st.settings.aliases entry.ealias ⟨m.mapping.take 2 ++ [r], m.backend⟩,
          st.settings.configWrites + 1⟩⟩ := by
      rw [hcase, hir]
      dsimp only
      rw [hpersist, hans]
      dsimp only
      exact (push_retry_events_state _ roles server date entry (some r) _
        ⟨m.mapping.take 2 ++ [r], m.backend⟩ p a [r]
        (dbLookup_dbInsert_self _ _ _) (by simp [hm])).2
    have hnm : (⟨m.mapping.take 2 ++ [r], m.backend⟩ : Mapping Int) =
        ⟨[p, a, r], m.backend⟩ := by simp [hm]
    refine ⟨?_, ?_, ?_, ?_⟩
    · rw [hstate]
      rw [show (⟨dbInsert st.db entry.ealias ⟨m.mapping.take 2 ++ [r], m.backend⟩,
         ⟨dbInsert st.settings.aliases entry.ealias ⟨m.mapping.take 2 ++ [r], m.backend⟩,
          st.settings.configWrites + 1⟩⟩ : PluginState Int).db =
        dbInsert st.db entry.ealias ⟨m.mapping.take 2 ++ [r], m.backend⟩ from rfl]
      rw [hnm] at *
      exact dbLookup_dbInsert_self _ _ _
    · rw [hstate]
      rw [hnm] at *
      exact dbLookup_dbInsert_self _ _ _
    · rw [hstate]
    · intro server2 user2
      have hdb2 : dbLookup (backend.push_entry st roles server user date entry).state.db
          entry.ealias = some ⟨[p, a, r], m.backend⟩ := by
        rw [hstate, ← hnm]
        exact dbLookup_dbInsert_self _ _ _
      constructor
      · rcases push_entry_first_push
          (backend.push_entry st roles server user date entry).state roles server2 user2
          date entry ⟨[p, a, r], m.backend⟩ p a [r] hdb2 rfl with ⟨t, ht⟩
        rw [ht]
        have hif : (if ([r] : List Int)[0]? = some 0 then none else ([r] : List Int)[0]?) =
            some r := by
          simp only [List.getElem?_cons_zero]
          rw [if_neg]
          simp [hr]
        rw [hif]
        rfl
      · intro hnr
        rcases push_entry_no_prompt
          (backend.push_entry st roles server user date entry).state roles server2 user2
          date entry ⟨[p, a, r], m.backend⟩ p a [r] hdb2 rfl hnr with ⟨he, _⟩
        rw [he]
        simp [countPrompts]

/-- C3: when an alias carries the never-ask sentinel, the role-resolution
flow never shows the persistence question and never writes to the alias
mapping: in backend.py `push_entry` retries with the chosen role while the
state is untouched, and in ui.py `prompt_role` returns the chosen role with
no persistence prompt and no state change. -/
theorem never_ask_sentinel_respected :
    (∀ (st : PluginState Int) (roles : List (Int × String)) (server : Nat → Response)
        (user : UserIO) (date : String) (entry : Entry) (m : Mapping Int) (p a : Int)
        (j0 : RespJson) (rsel : Option Int),
      dbLookup st.db entry.ealias = some m →
      m.mapping = [p, a, 0] →
      server 0 = { ok := false, json := some j0 } →
      j0.errorCode = some "role_needed" →
      backend.input_role roles user.roleInputs = .selected rsel →
      (backend.push_entry st roles server user date entry).events =
        [.pushed (mkParams p a none none date entry), .rolePromptShown,
         .pushed (mkParams p a rsel (some rsel.isNone) date entry)] ∧
      (backend.push_entry st roles server user date entry).state = st ∧
      countPersistPrompts (backend.push_entry st roles server user date entry).events = 0) ∧
    (∀ (stU : PluginState String) (projects_db : String → String → Option ui.Project)
        (entry : Entry) (roles : List ui.Role) (d : Option ui.Role) (user : UserIO)
        (mU : Mapping String) (pid : String) (rsel : Option ui.Role),
      dbLookup stU.db entry.ealias = some mU →
      mU.mapping[0]? = some pid →
      mU.mapping[2]? = some ui.NEVER_SAVE_ROLE_ID →
      ui.input_role roles
        (match projects_db pid mU.backend with
         | some pr => pr.team
         | none => none) d user.roleInputs = .selected rsel →
      ui.prompt_role stU projects_db entry roles d user = ⟨.ok rsel, [], stU⟩) := by
  constructor
  · intro st roles server user date entry m p a j0 rsel hdb hm hs0 hec hir
    have hcase : backend.push_entry st roles server user date entry =
        match backend.input_role roles user.roleInputs with
        | .hang =>
          ⟨.hang, [.pushed (mkParams p a none none date entry), .rolePromptShown], st⟩
        | .cancel =>
          ⟨.pushEntryFailed "Skipped",
           [.pushed (mkParams p a none none date entry), .rolePromptShown], st⟩
        | .selected rid =>
          backend.persist_and_retry st roles server user date entry (some 0) rid
            [.pushed (mkParams p a none none date entry), .rolePromptShown] :=
      push_entry_role_needed_cases st roles server user date entry m p a [0] j0 hdb hm hs0 hec
    rw [hcase, hir]
    dsimp only
    have hretry := push_retry_events_state st roles server date entry rsel
      [.pushed (mkParams p a none none date entry), .rolePromptShown] m p a [0] hdb hm
    cases rsel with
    | none =>
      rw [persist_none]
      refine ⟨hretry.1.trans (by simp), hretry.2, ?_⟩
      rw [hretry.1]
      simp [countPersistPrompts]
    | some r =>
      rw [persist_sentinel]
      refine ⟨hretry.1.trans (by simp), hretry.2, ?_⟩
      rw [hretry.1]
      simp [countPersistPrompts]
  · intro stU projects_db entry roles d user mU pid rsel hdbU hm0 hm2 hirU
    unfold ui.prompt_role
    rw [hdbU]
    dsimp only
    rw [hm0]
    dsimp only
    rw [hirU]
    cases rsel with
    | none => rfl
    | some r =>
      dsimp only
      have hrole : get_role_id_from_alias stU.db entry.ealias =
          some ui.NEVER_SAVE_ROLE_ID := by
        unfold get_role_id_from_alias
        rw [hdbU]
        exact hm2
      rw [if_pos hrole]

/-- C4 counterexample: an alias mapped to the non-sentinel role id 5 still
triggers the interactive role prompt when the server rejects the
role-bearing push with `role_needed`, so the claim fails for arbitrary
server responses. -/
theorem push_entry_role_alias_prompts_counterexample :
    get_role_from_entry ([("a", ⟨[7, 8, 5], "zebra"⟩)] : AliasDB Int)
      ⟨"a", 1, "work"⟩ = some 5 ∧
    ¬ (5 : Int) = 0 ∧
    countPrompts (backend.push_entry
      ⟨[("a", ⟨[7, 8, 5], "zebra"⟩)], ⟨[], 0⟩⟩ [(5, "Dev")]
      (fun _ => ⟨false, some ⟨some false, some "role_needed", none⟩⟩)
      ⟨[], .abort⟩ "2020-01-01" ⟨"a", 1, "work"⟩).events = 1 := by decide

/-- C4 (amended): pushing an entry whose alias mapping carries a
non-sentinel role id sends that role id on the first push and triggers no
interactive role prompt, for every server response to that push that is
not a falsy `role_needed` rejection; on such a rejection the flow
deliberately re-prompts. -/
theorem push_entry_role_alias_no_prompt_unless_role_needed
    (st : PluginState Int) (roles : List (Int × String)) (server : Nat → Response)
    (user : UserIO) (date : String) (entry : Entry) (m : Mapping Int) (p a r : Int)
    (hdb : dbLookup st.db entry.ealias = some m)
    (hm : m.mapping = [p, a, r]) (hr : ¬ r = 0)
    (hnr : ∀ j1, (server 0).json = some j1 → (server 0).ok = false →
      ¬ j1.errorCode = some "role_needed") :
    countPrompts (backend.push_entry st roles server user date entry).events = 0 ∧
    firstPush (backend.push_entry st roles server user date entry).events =
      some (mkParams p a (some r) none date entry) := by
  rcases push_entry_no_prompt st roles server user date entry m p a [r] hdb hm hnr
    with ⟨he, _⟩
  have hif : (if ([r] : List Int)[0]? = some 0 then none else ([r] : List Int)[0]?) =
      some r := by
    simp only [List.getElem?_cons_zero]
    rw [if_neg]
    simp [hr]
  rw [hif] at he
  rw [he]
  exact ⟨by simp [countPrompts], rfl⟩

/-- C5: when the user declines all roles via the individual-action option,
`input_role` returns `None` and the retry push carries
`individual_action=true` and no `role_id` parameter in its body. -/
theorem individual_action_retry
    (st : PluginState Int) (roles : List (Int × String)) (server : Nat → Response)
    (user : UserIO) (date : String) (entry : Entry) (m : Mapping Int) (p a : Int)
    (j0 : RespJson)
    (hdb : dbLookup st.db entry.ealias = some m)
    (hm : m.mapping = [p, a])
    (hs0 : server 0 = { ok := false, json := some j0 })
    (hec : j0.errorCode = some "role_needed")
    (hsel : backend.prompt_choices (backend.input_role_choices roles)
      (some (.strK "c")) user.roleInputs = some (some (.strK "i"))) :
    backend.input_role roles user.roleInputs = .selected none ∧
    (backend.push_entry st roles server user date entry).events =
      [.pushed (mkParams p a none none date entry), .rolePromptShown,
       .pushed (mkParams p a none (some true) date entry)] ∧
    (wireParams (mkParams p a none (some true) date entry)).lookup "role_id" = none ∧
    ("individual_action", "true") ∈ wireParams (mkParams p a none (some true) date entry) := by
  have hir : backend.input_role roles user.roleInputs = .selected none := by
    unfold backend.input_role
    rw [hsel]
    rfl
  have hcase : backend.push_entry st roles server user date entry =
      match backend.input_role roles user.roleInputs with
      | .hang =>
        ⟨.hang, [.pushed (mkParams p a none none date entry), .rolePromptShown], st⟩
      | .cancel =>
        ⟨.pushEntryFailed "Skipped",
         [.pushed (mkParams p a none none date entry), .rolePromptShown], st⟩
      | .selected rid =>
        backend.persist_and_retry st roles server user date entry none rid
          [.pushed (mkParams p a none none date entry), .rolePromptShown] :=
    push_entry_role_needed_cases st roles server user date entry m p a [] j0 hdb hm hs0 hec
  refine ⟨hir, ?_, ?_, ?_⟩
  · rw [hcase, hir]
    dsimp only
    rw [persist_none]
    have hretry := push_retry_events_state st roles server date entry none
      [.pushed (mkParams p a none none date entry), .rolePromptShown] m p a [] hdb hm
    exact hretry.1.trans (by simp)
  · simp [wireParams, mkParams, List.lookup]
  · simp [wireParams, mkParams]

/-- C6: cancelling during role prompting — choosing the cancel option,
aborting at the role prompt (which falls back to the cancel default), or
aborting at the persistence question — makes `push_entry` raise
`PushEntryFailed("Skipped")` with no retry push and the alias state
untouched; the failure is a per-entry exception. -/
theorem cancel_skips_entry
    (st : PluginState Int) (roles : List (Int × String)) (server : Nat → Response)
    (user : UserIO) (date : String) (entry : Entry) (m : Mapping Int) (p a : Int)
    (j0 : RespJson)
    (hdb : dbLookup st.db entry.ealias = some m)
    (hm : m.mapping = [p, a])
    (hs0 : server 0 = { ok := false, json := some j0 })
    (hec : j0.errorCode = some "role_needed") :
    (backend.input_role roles user.roleInputs = .cancel →
      backend.push_entry st roles server user date entry =
        ⟨.pushEntryFailed "Skipped",
         [.pushed (mkParams p a none none date entry), .rolePromptShown], st⟩) ∧
    (∀ rest2, user.roleInputs = .abort :: rest2 →
      backend.input_role roles user.roleInputs = .cancel) ∧
    (∀ r, backend.input_role roles user.roleInputs = .selected (some r) →
      user.persistAnswer = .abort →
      backend.push_entry st roles server user date entry =
        ⟨.pushEntryFailed "Skipped",
         [.pushed (mkParams p a none none date entry), .rolePromptShown,
          .persistPromptShown], st⟩) := by
  have hcase : backend.push_entry st roles server user date entry =
      match backend.input_role roles user.roleInputs with
      | .hang =>
        ⟨.hang, [.pushed (mkParams p a none none date entry), .rolePromptShown], st⟩
      | .cancel =>
        ⟨.pushEntryFailed "Skipped",
         [.pushed (mkParams p a none none date entry), .rolePromptShown], st⟩
      | .selected rid =>
        backend.persist_and_retry st roles server user date entry none rid
          [.pushed (mkParams p a none none date entry), .rolePromptShown] :=
    push_entry_role_needed_cases st roles server user date entry m p a [] j0 hdb hm hs0 hec
  refine ⟨?_, ?_, ?_⟩
  · intro hir
    rw [hcase, hir]
  · intro rest2 hinp
    unfold backend.input_role backend.prompt_choices
    rw [hinp, prompt_choices_go_abort]
    rfl
  · intro r hir hans
    rw [hcase, hir]
    dsimp only
    rcases input_role_selected_mem roles user.roleInputs r hir with ⟨name, hmem⟩
    rcases Option.isSome_iff_exists.mp (rolesLookup_isSome roles r name hmem) with ⟨nm2, hrl⟩
    rw [persist_some st roles server user date entry none r
      [.pushed (mkParams p a none none date entry), .rolePromptShown] nm2 m
      (by simp) hrl hdb, hans]
    rfl

/-- C7: the three failure classes are reported distinctly: a non-JSON login
response raises `TaxiException("Login failed, please check your
credentials")`, a non-JSON push response raises `PushEntryFailed("Got a
non-JSON response when trying to push timesheet")`, and a response whose
`success` field is false raises `PushEntryFailed` with the server's
`error` text or `"Unknown error"`; the push failures leave the alias state
untouched, aborting only the current entry. -/
theorem failure_classes_distinct :
    (∀ (password : String), ¬ password = "" →
      backend.authenticate false password none =
        .taxiException "Login failed, please check your credentials") ∧
    (∀ (db : AliasDB Int) (date : String) (entry : Entry) (rid : Option Int)
        (ia : Option Bool) (ok : Bool) (m : Mapping Int) (p a : Int) (rest : List Int),
      dbLookup db entry.ealias = some m → m.mapping = p :: a :: rest →
      (backend._push_entry db date entry rid ia ⟨ok, none⟩).result =
        .error (.pushEntryFailed "Got a non-JSON response when trying to push timesheet")) ∧
    (∀ (st : PluginState Int) (roles : List (Int × String)) (server : Nat → Response)
        (user : UserIO) (date : String) (entry : Entry) (m : Mapping Int) (p a : Int)
        (rest : List Int) (j0 : RespJson),
      dbLookup st.db entry.ealias = some m → m.mapping = p :: a :: rest →
      server 0 = { ok := true, json := some j0 } → j0.success = some false →
      (backend.push_entry st roles server user date entry).result =
        .pushEntryFailed (j0.error.getD "Unknown error") ∧
      (backend.push_entry st roles server user date entry).state = st) ∧
    ¬ ("Got a non-JSON response when trying to push timesheet" =
       "Login failed, please check your credentials") := by
  refine ⟨?_, ?_, ?_, by decide⟩
  · intro password hp
    unfold backend.authenticate
    rw [if_neg]
    rintro (h | h)
    · exact Bool.noConfusion h
    · exact hp h
  · intro db date entry rid ia ok m p a rest hdb hm
    unfold backend._push_entry
    rw [hdb]
    dsimp only
    rw [hm]
    simp only [List.getElem?_cons_zero, List.getElem?_cons_succ]
    rfl
  · intro st roles server user date entry m p a rest j0 hdb hm hs0 hsucc
    unfold backend.push_entry backend._push_entry backend.attEvents get_role_from_entry
    rw [hdb]
    dsimp only
    rw [hm]
    simp only [List.getElem?_cons_zero, List.getElem?_cons_succ]
    rw [hs0]
    dsimp only
    have hne : ¬ ((true = false) ∧ j0.errorCode = some "role_invalid") := by
      rintro ⟨h, _⟩
      exact Bool.noConfusion h
    rw [if_neg hne]
    dsimp only
    have hne2 : ¬ ((true = false) ∧ j0.errorCode = some "role_needed") := by
      rintro ⟨h, _⟩
      exact Bool.noConfusion h
    rw [if_neg hne2]
    unfold backend.push_finish
    rw [hsucc]
    exact ⟨rfl, rfl⟩

/-- C8 counterexample: with a single role, the input `"1"` is the
separator's positional key, which is never displayed (only options with a
non-`None` value are printed with their key), yet the prompt loop accepts
it and returns the separator's `None` value instead of re-prompting. -/
theorem prompt_options_separator_counterexample :
    ui.prompt_options (ui.input_role_options [⟨"5", none, "A"⟩] none) none
      [.text ['1']] = .value .noneV ∧
    ¬ (PyKey.intK 1) ∈ ui.displayedKeys (ui.input_role_options [⟨"5", none, "A"⟩] none) ∧
    inputKey ['1'] = .intK 1 := by decide

/-- C8 (amended): `input_role` presents the role options sorted
alphabetically by full name followed by the separator, the
individual-action option (key `i`) and the cancel option (key `c`); the
prompt loop returns only values bound to a key of the option table — the
displayed keys plus the separator's undisplayed positional index, whose
`None` value it returns instead of re-prompting — re-prompts on any input
bound to no key, and processes an empty input as the stringified id of the
pre-highlighted default when one is set. -/
theorem input_role_prompt_contract (roles : List ui.Role) (team : Option String)
    (dflt : Option ui.Role) (inputs : List UserInput) :
    ((ui.input_role_options roles team).map (fun o => o.label) =
      ((insertionSort ui.roleLt roles).map (fun r => r.full_name)) ++
        ["-----", "Individual action", "Cancel, skip this entry for now"]) ∧
    List.Perm (insertionSort ui.roleLt roles) roles ∧
    (insertionSort ui.roleLt roles).Pairwise
      (fun r1 r2 => strLe r1.full_name r2.full_name = true) ∧
    (∀ v, ui.prompt_options (ui.input_role_options roles team)
        (dflt.map (ui.role_to_option team)) inputs = .value v →
      ∃ k o, (k, o) ∈ ui.optionsByKey (ui.input_role_options roles team) ∧ o.value = v) ∧
    (∀ s rest, s.length ≠ 0 →
      ui.uiDictLookup (ui.optionsByKey (ui.input_role_options roles team))
        (inputKey s) = none →
      ui.prompt_options (ui.input_role_options roles team)
        (dflt.map (ui.role_to_option team)) (.text s :: rest) =
      ui.prompt_options (ui.input_role_options roles team)
        (dflt.map (ui.role_to_option team)) rest) ∧
    (∀ k rest,
      ui.default_option_id (ui.optionsByKey (ui.input_role_options roles team))
        (dflt.map (ui.role_to_option team)) = some k →
      (ui.keyStr k).length ≠ 0 →
      ui.prompt_options (ui.input_role_options roles team)
        (dflt.map (ui.role_to_option team)) (.text [] :: rest) =
      ui.prompt_options (ui.input_role_options roles team)
        (dflt.map (ui.role_to_option team)) (.text (ui.keyStr k) :: rest)) := by
  have hasymm : ∀ r1 r2 : ui.Role, ui.roleLt r1 r2 = true → ui.roleLt r2 r1 = false :=
    fun r1 r2 h => charListLt_asymm _ _ h
  have htrans : ∀ r1 r2 r3 : ui.Role, ui.roleLt r1 r2 = true → ui.roleLt r2 r3 = true →
      ui.roleLt r1 r3 = true :=
    fun r1 r2 r3 h1 h2 => charListLt_trans _ _ _ h1 h2
  refine ⟨?_, perm_insertionSort ui.roleLt roles, ?_, ?_, ?_, ?_⟩
  · simp [ui.input_role_options, ui.role_to_option]
  · have hp := pairwise_insertionSort ui.roleLt hasymm htrans roles
    refine hp.imp ?_
    intro r1 r2 h
    simp only [strLe, ui.roleLt] at h ⊢
    rw [h]
    rfl
  · intro v h
    unfold ui.prompt_options at h
    exact prompt_options_go_mem _ _ _ _ h
  · intro s rest hs hl
    unfold ui.prompt_options
    exact prompt_options_go_reprompt _ _ _ _ hs hl
  · intro k rest hdf hk
    unfold ui.prompt_options
    rw [hdf]
    exact prompt_options_go_empty_default _ _ _ hk

/-- C9: `get_role_from_entry` and `get_role_id_from_alias` are total: they
return `None` when the alias is absent from the aliases database and when
the stored mapping tuple has fewer than three elements, and the mapping's
third element otherwise; being functions, they never raise. -/
theorem get_role_total (α : Type) (db : AliasDB α) (entry : Entry) (m : Mapping α) :
    (dbLookup db entry.ealias = none →
      get_role_from_entry db entry = none ∧
      get_role_id_from_alias db entry.ealias = none) ∧
    (dbLookup db entry.ealias = some m → m.mapping.length < 3 →
      get_role_from_entry db entry = none ∧
      get_role_id_from_alias db entry.ealias = none) ∧
    (dbLookup db entry.ealias = some m → 3 ≤ m.mapping.length →
      ∃ r, m.mapping[2]? = some r ∧
        get_role_from_entry db entry = some r ∧
        get_role_id_from_alias db entry.ealias = some r) := by
  refine ⟨?_, ?_, ?_⟩
  · intro h
    unfold get_role_from_entry get_role_id_from_alias
    rw [h]
    exact ⟨rfl, rfl⟩
  · intro h hlen
    unfold get_role_from_entry get_role_id_from_alias
    rw [h]
    dsimp only
    have hn : m.mapping[2]? = none := by
      rw [List.getElem?_eq_none_iff]
      omega
    rw [hn]
    exact ⟨rfl, rfl⟩
  · intro h hlen
    unfold get_role_from_entry get_role_id_from_alias
    rw [h]
    dsimp only
    cases hx : m.mapping[2]? with
    | none =>
      rw [List.getElem?_eq_none_iff] at hx
      omega
    | some r => exact ⟨r, rfl, rfl, rfl⟩

theorem init_path_head (hostname : String) (port : Option Nat) (path : List Char) :
    (ZebraBackend.init hostname port path).path.head? = some '/' := by
  unfold ZebraBackend.init
  dsimp only
  by_cases h1 : path.head? = some '/'
  · rw [if_pos h1]
    by_cases h2 : path.getLast? = some '/'
    · rw [if_pos h2]
      exact h1
    · rw [if_neg h2]
      cases path with
      | nil => exact absurd h1 (by simp)
      | cons c t =>
        simp only [List.cons_append, List.head?_cons]
        simpa using h1
  · rw [if_neg h1]
    by_cases h2 : (('/' : Char) :: path).getLast? = some '/'
    · rw [if_pos h2]
      rfl
    · rw [if_neg h2]
      rfl

theorem init_path_last (hostname : String) (port : Option Nat) (path : List Char) :
    (ZebraBackend.init hostname port path).path.getLast? = some '/' := by
  unfold ZebraBackend.init
  dsimp only
  by_cases h2 : (if path.head? = some '/' then path else '/' :: path).getLast? = some '/'
  · rw [if_pos h2]
    exact h2
  · rw [if_neg h2]
    exact List.getLast?_concat _

theorem dropWhile_slash_head (url : List Char) :
    ¬ (url.dropWhile (· = '/')).head? = some '/' := by
  induction url with
  | nil => simp
  | cons c t ih =>
    by_cases hc : c = '/'
    · simpa [List.dropWhile_cons, hc] using ih
    · simp [List.dropWhile_cons, hc]

/-- C10: after `__init__`, the backend path starts and ends with a slash
and the port defaults to 443 when none was given; `get_full_url` is
`https://{host}:{port}` followed by the normalized path and the argument
stripped of its leading slashes, so path and argument are joined by
exactly one slash. -/
theorem zebra_init_url (hostname : String) (port : Option Nat) (path url : List Char) :
    (ZebraBackend.init hostname port path).path.head? = some '/' ∧
    (ZebraBackend.init hostname port path).path.getLast? = some '/' ∧
    (port = none → (ZebraBackend.init hostname port path).port = 443) ∧
    (ZebraBackend.init hostname port path).get_full_url url =
      "https://".data ++ hostname.data ++
        ':' :: (toString (ZebraBackend.init hostname port path).port).data ++
        (ZebraBackend.init hostname port path).path ++ url.dropWhile (· = '/') ∧
    ¬ (url.dropWhile (· = '/')).head? = some '/' := by
  refine ⟨init_path_head hostname port path, init_path_last hostname port path, ?_, rfl,
    dropWhile_slash_head url⟩
  intro h
  subst h
  rfl

theorem push_entry_one_prompt_one_retry_witness :
    countPrompts (backend.push_entry
      ⟨[("a", ⟨[1, 2], "z"⟩)], ⟨[], 0⟩⟩ [(5, "Dev")]
      (fun n => if n = 0 then ⟨false, some ⟨none, some "role_needed", none⟩⟩
                else ⟨true, some ⟨some true, none, none⟩⟩)
      ⟨[.text ['0']], .no⟩ "2020-01-01" ⟨"a", 1, "x"⟩).events = 1 ∧
    countPushes (backend.push_entry
      ⟨[("a", ⟨[1, 2], "z"⟩)], ⟨[], 0⟩⟩ [(5, "Dev")]
      (fun n => if n = 0 then ⟨false, some ⟨none, some "role_needed", none⟩⟩
                else ⟨true, some ⟨some true, none, none⟩⟩)
      ⟨[.text ['0']], .no⟩ "2020-01-01" ⟨"a", 1, "x"⟩).events = 2 := by
  have h := push_entry_one_prompt_one_retry
    ⟨[("a", ⟨[1, 2], "z"⟩)], ⟨[], 0⟩⟩ [(5, "Dev")]
    (fun n => if n = 0 then ⟨false, some ⟨none, some "role_needed", none⟩⟩
              else ⟨true, some ⟨some true, none, none⟩⟩)
    ⟨[.text ['0']], .no⟩ "2020-01-01" ⟨"a", 1, "x"⟩ ⟨[1, 2], "z"⟩ 1 2
    ⟨none, some "role_needed", none⟩ (by decide) rfl rfl rfl
  exact ⟨h.1, h.2.2 (some 5) (by decide) (Or.inr (by decide))⟩

theorem update_alias_persist_and_reuse_witness :
    dbLookup (backend.push_entry
      ⟨[("a", ⟨[1, 2], "z"⟩)], ⟨[], 0⟩⟩ [(5, "Dev")]
      (fun n => if n = 0 then ⟨false, some ⟨none, some "role_needed", none⟩⟩
                else ⟨true, some ⟨some true, none, none⟩⟩)
      ⟨[.text ['0']], .yes⟩ "2020-01-01" ⟨"a", 1, "x"⟩).state.db "a" =
      some ⟨[1, 2, 5], "z"⟩ ∧
    dbLookup (backend.push_entry
      ⟨[("a", ⟨[1, 2], "z"⟩)], ⟨[], 0⟩⟩ [(5, "Dev")]
      (fun n => if n = 0 then ⟨false, some ⟨none, some "role_needed", none⟩⟩
                else ⟨true, some ⟨some true, none, none⟩⟩)
      ⟨[.text ['0']], .yes⟩ "2020-01-01" ⟨"a", 1, "x"⟩).state.settings.aliases "a" =
      some ⟨[1, 2, 5], "z"⟩ ∧
    countPrompts (backend.push_entry
      (backend.push_entry
        ⟨[("a", ⟨[1, 2], "z"⟩)], ⟨[], 0⟩⟩ [(5, "Dev")]
        (fun n => if n = 0 then ⟨false, some ⟨none, some "role_needed", none⟩⟩
                  else ⟨true, some ⟨some true, none, none⟩⟩)
        ⟨[.text ['0']], .yes⟩ "2020-01-01" ⟨"a", 1, "x"⟩).state
      [(5, "Dev")] (fun _ => ⟨true, some ⟨some true, none, none⟩⟩)
      ⟨[], .no⟩ "2020-01-01" ⟨"a", 1, "x"⟩).events = 0 := by
  have h := update_alias_persist_and_reuse.2
    ⟨[("a", ⟨[1, 2], "z"⟩)], ⟨[], 0⟩⟩ [(5, "Dev")]
    (fun n => if n = 0 then ⟨false, some ⟨none, some "role_needed", none⟩⟩
              else ⟨true, some ⟨some true, none, none⟩⟩)
    ⟨[.text ['0']], .yes⟩ "2020-01-01" ⟨"a", 1, "x"⟩ ⟨[1, 2], "z"⟩ 1 2
    ⟨none, some "role_needed", none⟩ 5 (by decide) rfl rfl rfl (by decide) (by decide) rfl
  refine ⟨h.1, h.2.1, ?_⟩
  exact (h.2.2.2 (fun _ => ⟨true, some ⟨some true, none, none⟩⟩) ⟨[], .no⟩).2
    (fun j1 hj hok => Bool.noConfusion hok)

theorem never_ask_sentinel_respected_witness :
    (backend.push_entry ⟨[("a", ⟨[1, 2, 0], "z"⟩)], ⟨[], 0⟩⟩ [(5, "Dev")]
      (fun n => if n = 0 then ⟨false, some ⟨none, some "role_needed", none⟩⟩
                else ⟨true, some ⟨some true, none, none⟩⟩)
      ⟨[.text ['0']], .abort⟩ "2020-01-01" ⟨"a", 1, "x"⟩).state =
      ⟨[("a", ⟨[1, 2, 0], "z"⟩)], ⟨[], 0⟩⟩ ∧
    countPersistPrompts (backend.push_entry ⟨[("a", ⟨[1, 2, 0], "z"⟩)], ⟨[], 0⟩⟩ [(5, "Dev")]
      (fun n => if n = 0 then ⟨false, some ⟨none, some "role_needed", none⟩⟩
                else ⟨true, some ⟨some true, none, none⟩⟩)
      ⟨[.text ['0']], .abort⟩ "2020-01-01" ⟨"a", 1, "x"⟩).events = 0 ∧
    ui.prompt_role ⟨[("a", ⟨["1", "1", "0"], "local"⟩)], ⟨[], 0⟩⟩ (fun _ _ => none)
      ⟨"a", 1, "x"⟩ [⟨"2", some "1", "Role"⟩] none ⟨[.text ['0']], .yes⟩ =
      ⟨.ok (some ⟨"2", some "1", "Role"⟩), [], ⟨[("a", ⟨["1", "1", "0"], "local"⟩)], ⟨[], 0⟩⟩⟩ := by
  have h1 := never_ask_sentinel_respected.1
    ⟨[("a", ⟨[1, 2, 0], "z"⟩)], ⟨[], 0⟩⟩ [(5, "Dev")]
    (fun n => if n = 0 then ⟨false, some ⟨none, some "role_needed", none⟩⟩
              else ⟨true, some ⟨some true, none, none⟩⟩)
    ⟨[.text ['0']], .abort⟩ "2020-01-01" ⟨"a", 1, "x"⟩ ⟨[1, 2, 0], "z"⟩ 1 2
    ⟨none, some "role_needed", none⟩ (some 5) (by decide) rfl rfl rfl (by decide)
  have h2 := never_ask_sentinel_respected.2
    ⟨[("a", ⟨["1", "1", "0"], "local"⟩)], ⟨[], 0⟩⟩ (fun _ _ => none)
    ⟨"a", 1, "x"⟩ [⟨"2", some "1", "Role"⟩] none ⟨[.text ['0']], .yes⟩
    ⟨["1", "1", "0"], "local"⟩ "1" (some ⟨"2", some "1", "Role"⟩)
    (by decide) (by decide) (by decide) (by decide)
  exact ⟨h1.2.1, h1.2.2, h2⟩

theorem push_entry_role_alias_no_prompt_witness :
    countPrompts (backend.push_entry ⟨[("a", ⟨[7, 8, 5], "z"⟩)], ⟨[], 0⟩⟩ [(5, "Dev")]
      (fun _ => ⟨true, some ⟨some true, none, none⟩⟩)
      ⟨[], .no⟩ "2020-01-01" ⟨"a", 1, "x"⟩).events = 0 ∧
    firstPush (backend.push_entry ⟨[("a", ⟨[7, 8, 5], "z"⟩)], ⟨[], 0⟩⟩ [(5, "Dev")]
      (fun _ => ⟨true, some ⟨some true, none, none⟩⟩)
      ⟨[], .no⟩ "2020-01-01" ⟨"a", 1, "x"⟩).events =
      some (mkParams 7 8 (some 5) none "2020-01-01" ⟨"a", 1, "x"⟩) := by
  exact push_entry_role_alias_no_prompt_unless_role_needed
    ⟨[("a", ⟨[7, 8, 5], "z"⟩)], ⟨[], 0⟩⟩ [(5, "Dev")]
    (fun _ => ⟨true, some ⟨some true, none, none⟩⟩)
    ⟨[], .no⟩ "2020-01-01" ⟨"a", 1, "x"⟩ ⟨[7, 8, 5], "z"⟩ 7 8 5
    (by decide) rfl (by decide) (fun j1 hj hok => Bool.noConfusion hok)

theorem individual_action_retry_witness :
    backend.input_role [(5, "Dev")] [.text ['i']] = .selected none ∧
    (backend.push_entry ⟨[("a", ⟨[1, 2], "z"⟩)], ⟨[], 0⟩⟩ [(5, "Dev")]
      (fun n => if n = 0 then ⟨false, some ⟨none, some "role_needed", none⟩⟩
                else ⟨true, some ⟨some true, none, none⟩⟩)
      ⟨[.text ['i']], .no⟩ "2020-01-01" ⟨"a", 1, "x"⟩).events =
      [.pushed (mkParams 1 2 none none "2020-01-01" ⟨"a", 1, "x"⟩), .rolePromptShown,
       .pushed (mkParams 1 2 none (some true) "2020-01-01" ⟨"a", 1, "x"⟩)] ∧
    (wireParams (mkParams 1 2 none (some true) "2020-01-01" ⟨"a", 1, "x"⟩)).lookup
      "role_id" = none ∧
    ("individual_action", "true") ∈
      wireParams (mkParams 1 2 none (some true) "2020-01-01" ⟨"a", 1, "x"⟩) := by
  exact individual_action_retry
    ⟨[("a", ⟨[1, 2], "z"⟩)], ⟨[], 0⟩⟩ [(5, "Dev")]
    (fun n => if n = 0 then ⟨false, some ⟨none, some "role_needed", none⟩⟩
              else ⟨true, some ⟨some true, none, none⟩⟩)
    ⟨[.text ['i']], .no⟩ "2020-01-01" ⟨"a", 1, "x"⟩ ⟨[1, 2], "z"⟩ 1 2
    ⟨none, some "role_needed", none⟩ (by decide) rfl rfl rfl (by decide)

theorem cancel_skips_entry_witness :
    backend.push_entry ⟨[("a", ⟨[1, 2], "z"⟩)], ⟨[], 0⟩⟩ [(5, "Dev")]
      (fun n => if n = 0 then ⟨false, some ⟨none, some "role_needed", none⟩⟩
                else ⟨true, some ⟨some true, none, none⟩⟩)
      ⟨[.text ['c']], .no⟩ "2020-01-01" ⟨"a", 1, "x"⟩ =
      ⟨.pushEntryFailed "Skipped",
       [.pushed (mkParams 1 2 none none "2020-01-01" ⟨"a", 1, "x"⟩), .rolePromptShown],
       ⟨[("a", ⟨[1, 2], "z"⟩)], ⟨[], 0⟩⟩⟩ ∧
    backend.input_role [(5, "Dev")] [.abort] = .cancel ∧
    backend.push_entry ⟨[("a", ⟨[1, 2], "z"⟩)], ⟨[], 0⟩⟩ [(5, "Dev")]
      (fun n => if n = 0 then ⟨false, some ⟨none, some "role_needed", none⟩⟩
                else ⟨true, some ⟨some true, none, none⟩⟩)
      ⟨[.text ['0']], .abort⟩ "2020-01-01" ⟨"a", 1, "x"⟩ =
      ⟨.pushEntryFailed "Skipped",
       [.pushed (mkParams 1 2 none none "2020-01-01" ⟨"a", 1, "x"⟩), .rolePromptShown,
        .persistPromptShown],
       ⟨[("a", ⟨[1, 2], "z"⟩)], ⟨[], 0⟩⟩⟩ := by
  have hc := cancel_skips_entry
    ⟨[("a", ⟨[1, 2], "z"⟩)], ⟨[], 0⟩⟩ [(5, "Dev")]
    (fun n => if n = 0 then ⟨false, some ⟨none, some "role_needed", none⟩⟩
              else ⟨true, some ⟨some true, none, none⟩⟩)
    ⟨[.text ['c']], .no⟩ "2020-01-01" ⟨"a", 1, "x"⟩ ⟨[1, 2], "z"⟩ 1 2
    ⟨none, some "role_needed", none⟩ (by decide) rfl rfl rfl
  have ha := cancel_skips_entry
    ⟨[("a", ⟨[1, 2], "z"⟩)], ⟨[], 0⟩⟩ [(5, "Dev")]
    (fun n => if n = 0 then ⟨false, some ⟨none, some "role_needed", none⟩⟩
              else ⟨true, some ⟨some true, none, none⟩⟩)
    ⟨[.abort], .no⟩ "2020-01-01" ⟨"a", 1, "x"⟩ ⟨[1, 2], "z"⟩ 1 2
    ⟨none, some "role_needed", none⟩ (by decide) rfl rfl rfl
  have hy := cancel_skips_entry
    ⟨[("a", ⟨[1, 2], "z"⟩)], ⟨[], 0⟩⟩ [(5, "Dev")]
    (fun n => if n = 0 then ⟨false, some ⟨none, some "role_needed", none⟩⟩
              else ⟨true, some ⟨some true, none, none⟩⟩)
    ⟨[.text ['0']], .abort⟩ "2020-01-01" ⟨"a", 1, "x"⟩ ⟨[1, 2], "z"⟩ 1 2
    ⟨none, some "role_needed", none⟩ (by decide) rfl rfl rfl
  exact ⟨hc.1 (by decide), ha.2.1 [] rfl, hy.2.2 5 (by decide) rfl⟩

theorem failure_classes_distinct_witness :
    backend.authenticate false "hunter2" none =
      .taxiException "Login failed, please check your credentials" ∧
    (backend._push_entry ([("a", ⟨[1, 2], "z"⟩)] : AliasDB Int) "2020-01-01"
      ⟨"a", 1, "x"⟩ none none ⟨true, none⟩).result =
      .error (.pushEntryFailed "Got a non-JSON response when trying to push timesheet") ∧
    (backend.push_entry ⟨[("a", ⟨[1, 2], "z"⟩)], ⟨[], 0⟩⟩ [(5, "Dev")]
      (fun _ => ⟨true, some ⟨some false, none, some "boom"⟩⟩)
      ⟨[], .no⟩ "2020-01-01" ⟨"a", 1, "x"⟩).result = .pushEntryFailed "boom" ∧
    (backend.push_entry ⟨[("a", ⟨[1, 2], "z"⟩)], ⟨[], 0⟩⟩ [(5, "Dev")]
      (fun _ => ⟨true, some ⟨some false, none, none⟩⟩)
      ⟨[], .no⟩ "2020-01-01" ⟨"a", 1, "x"⟩).result = .pushEntryFailed "Unknown error" := by
  refine ⟨failure_classes_distinct.1 "hunter2" (by decide), ?_, ?_, ?_⟩
  · exact failure_classes_distinct.2.1 [("a", ⟨[1, 2], "z"⟩)] "2020-01-01"
      ⟨"a", 1, "x"⟩ none none true ⟨[1, 2], "z"⟩ 1 2 [] (by decide) rfl
  · exact (failure_classes_distinct.2.2.1 ⟨[("a", ⟨[1, 2], "z"⟩)], ⟨[], 0⟩⟩ [(5, "Dev")]
      (fun _ => ⟨true, some ⟨some false, none, some "boom"⟩⟩)
      ⟨[], .no⟩ "2020-01-01" ⟨"a", 1, "x"⟩ ⟨[1, 2], "z"⟩ 1 2 []
      ⟨some false, none, some "boom"⟩ (by decide) rfl rfl rfl).1
  · exact (failure_classes_distinct.2.2.1 ⟨[("a", ⟨[1, 2], "z"⟩)], ⟨[], 0⟩⟩ [(5, "Dev")]
      (fun _ => ⟨true, some ⟨some false, none, none⟩⟩)
      ⟨[], .no⟩ "2020-01-01" ⟨"a", 1, "x"⟩ ⟨[1, 2], "z"⟩ 1 2 []
      ⟨some false, none, none⟩ (by decide) rfl rfl rfl).1

theorem input_role_prompt_contract_witness :
    ui.prompt_options
      (ui.input_role_options [⟨"2", some "1", "Role"⟩, ⟨"3", some "1", "Role 2"⟩] none)
      ((some ⟨"3", some "1", "Role 2"⟩).map (ui.role_to_option none))
      [.text ['9']] =
    ui.prompt_options
      (ui.input_role_options [⟨"2", some "1", "Role"⟩, ⟨"3", some "1", "Role 2"⟩] none)
      ((some ⟨"3", some "1", "Role 2"⟩).map (ui.role_to_option none)) [] ∧
    ui.prompt_options
      (ui.input_role_options [⟨"2", some "1", "Role"⟩, ⟨"3", some "1", "Role 2"⟩] none)
      ((some ⟨"3", some "1", "Role 2"⟩).map (ui.role_to_option none))
      [.text []] =
    ui.prompt_options
      (ui.input_role_options [⟨"2", some "1", "Role"⟩, ⟨"3", some "1", "Role 2"⟩] none)
      ((some ⟨"3", some "1", "Role 2"⟩).map (ui.role_to_option none))
      [.text ['1']] ∧
    ui.prompt_options
      (ui.input_role_options [⟨"2", some "1", "Role"⟩, ⟨"3", some "1", "Role 2"⟩] none)
      ((some ⟨"3", some "1", "Role 2"⟩).map (ui.role_to_option none))
      [.text []] = .value (.roleV ⟨"3", some "1", "Role 2"⟩) := by
  have h := input_role_prompt_contract
    [⟨"2", some "1", "Role"⟩, ⟨"3", some "1", "Role 2"⟩] none
    (some ⟨"3", some "1", "Role 2"⟩) []
  refine ⟨h.2.2.2.2.1 ['9'] [] (by decide) (by decide), ?_, by decide⟩
  exact h.2.2.2.2.2 (.intK 1) [] (by decide) (by decide)

theorem get_role_total_witness :
    get_role_from_entry ([("a", ⟨[1, 2, 7], "z"⟩)] : AliasDB Int) ⟨"a", 1, "x"⟩ =
      some 7 ∧
    get_role_id_from_alias ([("a", ⟨[1, 2, 7], "z"⟩)] : AliasDB Int) "a" = some 7 ∧
    get_role_from_entry ([("a", ⟨[1, 2], "z"⟩)] : AliasDB Int) ⟨"a", 1, "x"⟩ = none ∧
    get_role_from_entry ([("a", ⟨[1, 2], "z"⟩)] : AliasDB Int) ⟨"b", 1, "x"⟩ = none := by
  have h3 := (get_role_total Int [("a", ⟨[1, 2, 7], "z"⟩)] ⟨"a", 1, "x"⟩
    ⟨[1, 2, 7], "z"⟩).2.2 (by decide) (by decide)
  have h2 := ((get_role_total Int [("a", ⟨[1, 2], "z"⟩)] ⟨"a", 1, "x"⟩
    ⟨[1, 2], "z"⟩).2.1 (by decide) (by decide)).1
  have h0 := ((get_role_total Int [("a", ⟨[1, 2], "z"⟩)] ⟨"b", 1, "x"⟩
    ⟨[1, 2], "z"⟩).1 (by decide)).1
  rcases h3 with ⟨r, hr, hget, halias⟩
  have hr7 : r = 7 := by simpa using hr.symm
  subst hr7
  exact ⟨hget, halias, h2, h0⟩

theorem zebra_init_url_witness :
    (ZebraBackend.init "zebralocal" none "taxi".data).path.head? = some '/' ∧
    (ZebraBackend.init "zebralocal" none "taxi".data).path.getLast? = some '/' ∧
    (ZebraBackend.init "zebralocal" none "taxi".data).port = 443 ∧
    (ZebraBackend.init "zebralocal" none "taxi".data).get_full_url "//login/user".data =
      "https://".data ++ "zebralocal".data ++
        ':' :: (toString (ZebraBackend.init "zebralocal" none "taxi".data).port).data ++
        (ZebraBackend.init "zebralocal" none "taxi".data).path ++
        ("//login/user".data.dropWhile (· = '/')) := by
  have h := zebra_init_url "zebralocal" none "taxi".data "//login/user".data
  exact ⟨h.1, h.2.1, h.2.2.1 rfl, h.2.2.2.1⟩

end TaxiZebra
